import Mathlib

/-!
# IBC general-message middleware (`gmp_middleware`)

A shallow embedding of the inbound-packet pipeline of the repository:

* `gmp_middleware/types.go`      : `AxelarGMPAcc`, `Message`, the message-type constants,
  `parseDenom`, `validateMessage`;
* `gmp_middleware/middleware.go` : `IBCMiddleware.OnRecvPacket`;
* `send-receive/cosmos/gmp_middleware.go` : the second `IBCMiddleware.OnRecvPacket`.

Go strings are modelled by Lean strings.  Every string operation the code performs
(concatenation, prefix test, cutting a string right after a prefix it was tested to
start with, splitting at `/`) gives the same answer on the UTF-8 bytes and on the
characters, so lengths are counted in characters.

Go values of type `[]byte` are lists of naturals below 256.  `sdk.Context` is threaded
unchanged to the wrapped module and to the handler and is left out.
-/

namespace GmpMiddleware

/-! ## Go errors, panics -/

/-- Failure classes of `encoding/json`'s `Unmarshal`. -/
inductive JsonError where
  /-- A `SyntaxError`: the input is not one well-formed JSON value. -/
  | syntaxError
  /-- An `UnmarshalTypeError`: a JSON value that does not fit the Go field. -/
  | typeError (field : String)
  /-- A `base64.CorruptInputError` from decoding a `[]byte` field. -/
  | corruptInput
  deriving DecidableEq, Repr

/-- Go `error` values, as far as the middleware builds or forwards them. -/
inductive GoError where
  /-- Built by `errors.New` or by `fmt.Errorf` without `%w`: the formatted text. -/
  | msg (text : String)
  /-- Built by `fmt.Errorf(context + ": %w", cause)`. -/
  | wrap (context : String) (cause : GoError)
  /-- Built by `sdkerrors.Wrapf(registered, ...)`: the registered error and the description. -/
  | sdkWrap (registered : GoError) (description : String)
  /-- An error returned by `json.Unmarshal`. -/
  | json (e : JsonError)
  deriving DecidableEq, Repr

deriving instance DecidableEq for Except

/-- Result of running Go code that may panic instead of returning. -/
inductive Outcome (α : Type) where
  | returned (value : α)
  | panicked (reason : GoError)
  deriving DecidableEq, Repr

/-! ## Go string primitives -/

/-- Model of `strings.HasPrefix(s, pre)`. -/
def hasPrefix (s pre : String) : Bool :=
  pre.data.isPrefixOf s.data

/-- Model of the slice expression `s[n:]`: out of range (a run-time panic) when `n > len(s)`. -/
def sliceFrom (s : String) (n : Nat) : Option String :=
  if n ≤ s.length then some ⟨s.data.drop n⟩ else none

/-- Splitting a character list at every `/`; the pieces never contain `/`. -/
def splitSlashChars : List Char → List (List Char)
  | [] => [[]]
  | c :: cs =>
    if c = '/' then [] :: splitSlashChars cs
    else
      match splitSlashChars cs with
      | [] => [[c]]
      | piece :: pieces => (c :: piece) :: pieces

/-- Model of `strings.Split(s, "/")`. -/
def splitSlash (s : String) : List String :=
  (splitSlashChars s.data).map String.mk

/-- Model of `strings.Join(items, "/")`. -/
def joinSlash : List String → String
  | [] => ""
  | [a] => a
  | a :: b :: rest => a ++ "/" ++ joinSlash (b :: rest)

/-! ## ibc-go: channel identifiers and denomination traces

The functions below belong to `ibc-go` (`modules/core/04-channel/types` and
`modules/apps/transfer/types`).  They are not part of the repository; `parseDenom`
is defined in terms of them, so they are modelled after the library version that
`types.go` imports.  The SHA-256 digest is a parameter. -/

/-- Model of `strconv.ParseUint(digits, 10, 64)` on a string already known to consist of
decimal digits: the value, unless it exceeds `2^64 - 1`. -/
def parseUint64 (digits : List Char) : Option Nat :=
  let v := digits.foldl (fun acc c => 10 * acc + (c.toNat - '0'.toNat)) 0
  if v < 2 ^ 64 then some v else none

/-- Model of `channeltypes.IsChannelIDFormat`, the regular expression
`^channel-[0-9]{1,20}$`: the digits after `channel-`, when the identifier has that shape. -/
def channelIDDigits (channelID : String) : Option (List Char) :=
  if "channel-".data.isPrefixOf channelID.data then
    let ds := channelID.data.drop 8
    if ds.all Char.isDigit && 1 ≤ ds.length && ds.length ≤ 20 then some ds else none
  else none

/-- Model of `channeltypes.IsValidChannelID`: `ParseChannelSequence` succeeds. -/
def IsValidChannelID (channelID : String) : Bool :=
  match channelIDDigits channelID with
  | some ds => (parseUint64 ds).isSome
  | none => false

/-- Model of `transfertypes.GetDenomPrefix`: `fmt.Sprintf("%s/%s/", portID, channelID)`. -/
def GetDenomPrefix (portID channelID : String) : String :=
  portID ++ "/" ++ channelID ++ "/"

/-- Model of `transfertypes.ReceiverChainIsSource`. -/
def ReceiverChainIsSource (sourcePort sourceChannel denom : String) : Bool :=
  hasPrefix denom (GetDenomPrefix sourcePort sourceChannel)

/-- The ibc-go `DenomTrace`. -/
structure DenomTrace where
  Path : String
  BaseDenom : String
  deriving DecidableEq, Repr

/-- The loop of `extractPathAndBaseFromFullDenom`, on the items from index `i` on.
`length` is the number of items of the full denomination.  With at least two items
left (`i < length-1`), `length > 2` and a valid channel identifier at `i+1`, the pair is
appended to the path; otherwise the remaining items are the base denomination. -/
def extractLoop (length : Nat) : List String → List String → List String × List String
  | [], path => (path, [])
  | [x], path => (path, [x])
  | x :: y :: rest, path =>
    if 2 < length && IsValidChannelID y then extractLoop length rest (path ++ [x, y])
    else (path, x :: y :: rest)

/-- Model of `extractPathAndBaseFromFullDenom`. -/
def extractPathAndBaseFromFullDenom (fullDenomItems : List String) : String × String :=
  let r := extractLoop fullDenomItems.length fullDenomItems []
  (joinSlash r.1, joinSlash r.2)

/-- Model of `transfertypes.ParseDenomTrace`. -/
def ParseDenomTrace (rawDenom : String) : DenomTrace :=
  let denomSplit := splitSlash rawDenom
  if denomSplit.head? = some rawDenom then
    { Path := "", BaseDenom := rawDenom }
  else
    let r := extractPathAndBaseFromFullDenom denomSplit
    { Path := r.1, BaseDenom := r.2 }

/-- Model of `DenomTrace.GetFullDenomPath`. -/
def DenomTrace.GetFullDenomPath (dt : DenomTrace) : String :=
  if dt.Path = "" then dt.BaseDenom else dt.Path ++ "/" ++ dt.BaseDenom

/-- Model of `DenomTrace.IBCDenom`; `hash` is the upper-case hexadecimal SHA-256 digest
(`DenomTrace.Hash` printed with `%s`). -/
def DenomTrace.IBCDenom (hash : String → String) (dt : DenomTrace) : String :=
  if dt.Path ≠ "" then "ibc/" ++ hash dt.GetFullDenomPath else dt.BaseDenom

/-! ## `types.go` -/

/-- The fields of `channeltypes.Packet` the middleware reads. -/
structure Packet where
  Sequence : Nat
  SourcePort : String
  SourceChannel : String
  DestinationPort : String
  DestinationChannel : String
  Data : List Nat
  deriving DecidableEq, Repr

/-- The constant `AxelarGMPAcc` (a placeholder in the source: the empty string). -/
def AxelarGMPAcc : String := ""

/-- The struct `Message`, decoded from the memo.  `Type_` is the field `Type`, an `int64`
(`Type` is reserved in Lean). -/
structure Message where
  SourceChain : String
  SourceAddress : String
  Payload : List Nat
  Type_ : Int
  deriving DecidableEq, Repr

/-- The constant `TypeUnrecognized` (`iota` = 0). -/
def TypeUnrecognized : Int := 0
/-- The constant `TypeGeneralMessage` (1). -/
def TypeGeneralMessage : Int := 1
/-- The constant `TypeGeneralMessageWithToken` (2). -/
def TypeGeneralMessageWithToken : Int := 2

/-- The function `parseDenom` of `types.go`.  The only operation that could panic is the
slice `denom[len(voucherPrefix):]`. -/
def parseDenom (hash : String → String) (packet : Packet) (denom : String) : Outcome String :=
  if ReceiverChainIsSource packet.SourcePort packet.SourceChannel denom then
    let voucherPrefix := GetDenomPrefix packet.SourcePort packet.SourceChannel
    if denom.length ≤ voucherPrefix.length then
      .returned denom
    else
      match sliceFrom denom voucherPrefix.length with
      | none => .panicked (.msg "slice bounds out of range")
      | some unprefixedDenom =>
        let denomTrace := ParseDenomTrace unprefixedDenom
        if denomTrace.Path ≠ "" then
          .returned (denomTrace.IBCDenom hash)
        else
          .returned unprefixedDenom
  else
    let prefixedDenom := GetDenomPrefix packet.DestinationPort packet.DestinationChannel ++ denom
    .returned ((ParseDenomTrace prefixedDenom).IBCDenom hash)

/-- Go's `%d` for an `int64`. -/
def fmtInt (n : Int) : String := toString n

/-- The function `validateMessage` of `types.go`; the argument is a pointer, `none` is `nil`.
The result is the returned error, `none` for `nil`. -/
def validateMessage (msg : Option Message) : Option GoError :=
  match msg with
  | none => some (.msg "message cannot be nil")
  | some m =>
    if m.SourceChain = "" then some (.msg "source_chain field is required")
    else if m.SourceAddress = "" then some (.msg "source_address field is required")
    else if m.Payload.length = 0 then some (.msg "payload field is required")
    else if m.Type_ ≠ TypeGeneralMessage ∧ m.Type_ ≠ TypeGeneralMessageWithToken then
      some (.msg ("unrecognized message type: " ++ fmtInt m.Type_))
    else none


/-! ## `encoding/json`: decoding the memo into a `Message`

`json.Unmarshal` is part of the Go standard library.  The model follows its two passes:
the whole input is first checked to be one well-formed JSON value (a `SyntaxError`
otherwise), then the value is stored into the struct through the `json:"..."` tags. -/

/-- A parsed JSON value.  Numbers keep their literal text. -/
inductive JVal where
  | null
  | bool (b : Bool)
  | num (raw : List Char)
  | str (s : String)
  | arr (items : List JVal)
  | obj (members : List (String × JVal))

/-- JSON white space: space, tab, line feed, carriage return. -/
def isJsonSpace (c : Char) : Bool :=
  c = ' ' || c = '\t' || c = '\n' || c = '\r'

/-- Dropping leading JSON white space. -/
def skipWs : List Char → List Char
  | [] => []
  | c :: cs => if isJsonSpace c then skipWs cs else c :: cs

/-- Value of a hexadecimal digit. -/
def hexVal (c : Char) : Option Nat :=
  if '0' ≤ c ∧ c ≤ '9' then some (c.toNat - '0'.toNat)
  else if 'a' ≤ c ∧ c ≤ 'f' then some (c.toNat - 'a'.toNat + 10)
  else if 'A' ≤ c ∧ c ≤ 'F' then some (c.toNat - 'A'.toNat + 10)
  else none

/-- Four hexadecimal digits of a `\u` escape (`getu4`). -/
def hex4 (a b c d : Char) : Option Nat :=
  match hexVal a, hexVal b, hexVal c, hexVal d with
  | some x, some y, some z, some w => some (((x * 16 + y) * 16 + z) * 16 + w)
  | _, _, _, _ => none

/-- The Unicode replacement character U+FFFD. -/
def replacementChar : Char := Char.ofNat 0xFFFD

/-- Body of a JSON string literal, after the opening quote: the decoded text and the
input after the closing quote.  Control characters and unknown escapes are syntax
errors; a `\u` escape naming half of a surrogate pair is joined with a following
second half, and replaced by U+FFFD when there is none.  The first argument bounds the
number of steps; each step uses up at least one character. -/
def parseStringBody : Nat → List Char → List Char → Option (String × List Char)
  | 0, _, _ => none
  | _ + 1, [], _ => none
  | _ + 1, '"' :: rest, acc => some (String.mk acc.reverse, rest)
  | fuel + 1, '\\' :: 'u' :: a :: b :: c :: d :: rest, acc =>
    match hex4 a b c d with
    | none => none
    | some hi =>
      if 0xD800 ≤ hi ∧ hi < 0xE000 then
        match rest with
        | '\\' :: 'u' :: a2 :: b2 :: c2 :: d2 :: rest2 =>
          match hex4 a2 b2 c2 d2 with
          | none => none
          | some lo =>
            if hi < 0xDC00 ∧ 0xDC00 ≤ lo ∧ lo < 0xE000 then
              parseStringBody fuel rest2
                (Char.ofNat (0x10000 + (hi - 0xD800) * 0x400 + (lo - 0xDC00)) :: acc)
            else parseStringBody fuel rest (replacementChar :: acc)
        | _ => parseStringBody fuel rest (replacementChar :: acc)
      else parseStringBody fuel rest (Char.ofNat hi :: acc)
  | fuel + 1, '\\' :: e :: rest, acc =>
    if e = '"' then parseStringBody fuel rest ('"' :: acc)
    else if e = '\\' then parseStringBody fuel rest ('\\' :: acc)
    else if e = '/' then parseStringBody fuel rest ('/' :: acc)
    else if e = 'b' then parseStringBody fuel rest (Char.ofNat 8 :: acc)
    else if e = 'f' then parseStringBody fuel rest (Char.ofNat 12 :: acc)
    else if e = 'n' then parseStringBody fuel rest ('\n' :: acc)
    else if e = 'r' then parseStringBody fuel rest ('\r' :: acc)
    else if e = 't' then parseStringBody fuel rest ('\t' :: acc)
    else none
  | fuel + 1, c :: rest, acc =>
    if c.toNat < 0x20 ∨ c = '\\' then none else parseStringBody fuel rest (c :: acc)

/-- A JSON string literal after its opening quote. -/
def parseString (cs : List Char) : Option (String × List Char) :=
  parseStringBody (cs.length + 1) cs []

/-- Leading decimal digits and the rest. -/
def spanDigits : List Char → List Char × List Char
  | [] => ([], [])
  | c :: cs =>
    if c.isDigit then
      let r := spanDigits cs
      (c :: r.1, r.2)
    else ([], c :: cs)

/-- Number literal, JSON grammar `-?(0|[1-9][0-9]*)(\.[0-9]+)?([eE][+-]?[0-9]+)?`:
its text and the rest of the input. -/
def parseNumber (cs : List Char) : Option (List Char × List Char) :=
  let (sign, cs1) :=
    match cs with
    | '-' :: r => (['-'], r)
    | _ => ([], cs)
  let intPart : Option (List Char × List Char) :=
    match cs1 with
    | [] => none
    | d :: r =>
      if d = '0' then some (['0'], r)
      else if d.isDigit then
        let s := spanDigits r
        some (d :: s.1, s.2)
      else none
  match intPart with
  | none => none
  | some (ip, cs2) =>
    let fracPart : Option (List Char × List Char) :=
      match cs2 with
      | '.' :: r =>
        let s := spanDigits r
        if s.1 = [] then none else some ('.' :: s.1, s.2)
      | _ => some ([], cs2)
    match fracPart with
    | none => none
    | some (fp, cs3) =>
      let expOf (mark : List Char) (r : List Char) : Option (List Char × List Char) :=
        let s := spanDigits r
        if s.1 = [] then none else some (mark ++ s.1, s.2)
      let expPart : Option (List Char × List Char) :=
        match cs3 with
        | 'e' :: '+' :: r => expOf ['e', '+'] r
        | 'e' :: '-' :: r => expOf ['e', '-'] r
        | 'e' :: r => expOf ['e'] r
        | 'E' :: '+' :: r => expOf ['E', '+'] r
        | 'E' :: '-' :: r => expOf ['E', '-'] r
        | 'E' :: r => expOf ['E'] r
        | _ => some ([], cs3)
      match expPart with
      | none => none
      | some (ep, cs4) => some (sign ++ ip ++ fp ++ ep, cs4)

mutual
/-- One JSON value, after optional white space. -/
def parseValue : Nat → List Char → Option (JVal × List Char)
  | 0, _ => none
  | fuel + 1, cs =>
    match skipWs cs with
    | '{' :: rest =>
      match skipWs rest with
      | '}' :: rest2 => some (.obj [], rest2)
      | _ =>
        match parseMembers fuel rest with
        | some (ms, rest2) => some (.obj ms, rest2)
        | none => none
    | '[' :: rest =>
      match skipWs rest with
      | ']' :: rest2 => some (.arr [], rest2)
      | _ =>
        match parseElements fuel rest with
        | some (vs, rest2) => some (.arr vs, rest2)
        | none => none
    | '"' :: rest =>
      match parseString rest with
      | some (s, rest2) => some (.str s, rest2)
      | none => none
    | 't' :: 'r' :: 'u' :: 'e' :: rest => some (.bool true, rest)
    | 'f' :: 'a' :: 'l' :: 's' :: 'e' :: rest => some (.bool false, rest)
    | 'n' :: 'u' :: 'l' :: 'l' :: rest => some (.null, rest)
    | other =>
      match parseNumber other with
      | some (raw, rest) => some (.num raw, rest)
      | none => none
/-- The elements of a non-empty array, up to and including the closing bracket. -/
def parseElements : Nat → List Char → Option (List JVal × List Char)
  | 0, _ => none
  | fuel + 1, cs =>
    match parseValue fuel cs with
    | none => none
    | some (v, rest) =>
      match skipWs rest with
      | ',' :: rest2 =>
        match parseElements fuel rest2 with
        | some (vs, rest3) => some (v :: vs, rest3)
        | none => none
      | ']' :: rest2 => some ([v], rest2)
      | _ => none
/-- The members of a non-empty object, up to and including the closing brace. -/
def parseMembers : Nat → List Char → Option (List (String × JVal) × List Char)
  | 0, _ => none
  | fuel + 1, cs =>
    match skipWs cs with
    | '"' :: rest =>
      match parseString rest with
      | none => none
      | some (key, rest2) =>
        match skipWs rest2 with
        | ':' :: rest3 =>
          match parseValue fuel rest3 with
          | none => none
          | some (v, rest4) =>
            match skipWs rest4 with
            | ',' :: rest5 =>
              match parseMembers fuel rest5 with
              | some (ms, rest6) => some ((key, v) :: ms, rest6)
              | none => none
            | '}' :: rest5 => some ([(key, v)], rest5)
            | _ => none
        | _ => none
    | _ => none
end

/-- The whole input as one JSON value surrounded by optional white space (what Go's
`checkValid` accepts).  Every step of the parser uses up a character at the latest
one step later, so `2 * length + 2` steps are enough for any input.  Go's limit of
10000 nested arrays and objects is not modelled. -/
def parseJson (input : String) : Option JVal :=
  match parseValue (2 * input.length + 2) input.data with
  | some (v, rest) => if skipWs rest = [] then some v else none
  | none => none

/-- Value of a character of the standard base64 alphabet. -/
def base64Val (c : Char) : Option Nat :=
  if 'A' ≤ c ∧ c ≤ 'Z' then some (c.toNat - 'A'.toNat)
  else if 'a' ≤ c ∧ c ≤ 'z' then some (c.toNat - 'a'.toNat + 26)
  else if '0' ≤ c ∧ c ≤ '9' then some (c.toNat - '0'.toNat + 52)
  else if c = '+' then some 62
  else if c = '/' then some 63
  else none

/-- Decoding of padded base64 quanta; the last quantum may end in `=` or `==`. -/
def decodeBase64Quanta : List Char → Option (List Nat)
  | [] => some []
  | [a, b, '=', '='] =>
    match base64Val a, base64Val b with
    | some x, some y => some [(x * 64 + y) / 16]
    | _, _ => none
  | [a, b, c, '='] =>
    match base64Val a, base64Val b, base64Val c with
    | some x, some y, some z => some [(x * 64 + y) / 16, ((y * 64 + z) / 4) % 256]
    | _, _, _ => none
  | a :: b :: c :: d :: rest =>
    match base64Val a, base64Val b, base64Val c, base64Val d, decodeBase64Quanta rest with
    | some x, some y, some z, some w, some bytes =>
      some ((x * 64 + y) / 16 :: ((y * 64 + z) / 4) % 256 :: (z * 64 + w) % 256 :: bytes)
    | _, _, _, _, _ => none
  | _ => none

/-- Model of `base64.StdEncoding.DecodeString`: carriage returns and line feeds are
ignored, padding is required. -/
def decodeBase64 (s : String) : Option (List Nat) :=
  decodeBase64Quanta (s.data.filter (fun c => !(c = '\r' || c = '\n')))

/-- Value of a string of decimal digits (`none` when a character is not a digit or
the string is empty). -/
def decimalValue (ds : List Char) : Option Nat :=
  if ds ≠ [] ∧ ds.all Char.isDigit = true then
    some (ds.foldl (fun acc c => 10 * acc + (c.toNat - '0'.toNat)) 0)
  else none

/-- A JSON number literal stored into an `int64`: `strconv.ParseInt(raw, 10, 64)`. -/
def parseInt64 (raw : List Char) : Option Int :=
  match raw with
  | '-' :: ds =>
    match decimalValue ds with
    | some v => if v ≤ 2 ^ 63 then some (-(v : Int)) else none
    | none => none
  | ds =>
    match decimalValue ds with
    | some v => if v < 2 ^ 63 then some (v : Int) else none
    | none => none

/-- A JSON number literal stored into a `uint8` (an element of a `[]byte` written as a
JSON array). -/
def parseUint8 (raw : List Char) : Option Nat :=
  match decimalValue raw with
  | some v => if v < 256 then some v else none
  | none => none

/-- Case folding of a key character, as far as it can match a character of the field
names `source_chain`, `source_address`, `payload`, `type`: ASCII letters, and the long s
(U+017F) and the Kelvin sign (U+212A), which fold to `s` and `k`. -/
def foldKeyChar (c : Char) : Char :=
  if 'A' ≤ c ∧ c ≤ 'Z' then Char.ofNat (c.toNat + 32)
  else if c = Char.ofNat 0x17F then 's'
  else if c = Char.ofNat 0x212A then 'k'
  else c

/-- A JSON object key selects a struct field when it equals the tag name, exactly or up
to case folding. -/
def keyMatches (key fieldName : String) : Bool :=
  key = fieldName || key.data.map foldKeyChar = fieldName.data.map foldKeyChar

/-- The decoder's running state: the struct being filled and the first saved error
(`d.savedError`). -/
structure DecodeState where
  msg : Message
  saved : Option JsonError

/-- Saving an error keeps the first one. -/
def DecodeState.saveError (st : DecodeState) (e : JsonError) : DecodeState :=
  { st with saved := st.saved.or (some e) }

/-- Elements of a JSON array stored into a `[]byte`; an element that is not a number
in `0..255` saves an error (`null` leaves the zero byte). -/
def storeByteElements : List JVal → List Nat × Option JsonError
  | [] => ([], none)
  | v :: vs =>
    let r := storeByteElements vs
    match v with
    | .num raw =>
      match parseUint8 raw with
      | some b => (b :: r.1, r.2)
      | none => (0 :: r.1, some (.typeError "payload"))
    | .null => (0 :: r.1, r.2)
    | _ => (0 :: r.1, some (.typeError "payload"))

/-- Storing one object member into the struct.  Unknown keys are ignored; `null` leaves
a string or integer field as it is and resets the byte slice; a value of the wrong JSON
type saves an `UnmarshalTypeError` and decoding goes on. -/
def storeMember (st : DecodeState) (key : String) (v : JVal) : DecodeState :=
  if keyMatches key "source_chain" then
    match v with
    | .str s => { st with msg := { st.msg with SourceChain := s } }
    | .null => st
    | _ => st.saveError (.typeError "source_chain")
  else if keyMatches key "source_address" then
    match v with
    | .str s => { st with msg := { st.msg with SourceAddress := s } }
    | .null => st
    | _ => st.saveError (.typeError "source_address")
  else if keyMatches key "payload" then
    match v with
    | .str s =>
      match decodeBase64 s with
      | some bytes => { st with msg := { st.msg with Payload := bytes } }
      | none => st.saveError .corruptInput
    | .null => { st with msg := { st.msg with Payload := [] } }
    | .arr items =>
      let r := storeByteElements items
      match r.2 with
      | none => { st with msg := { st.msg with Payload := r.1 } }
      | some e => st.saveError e
    | _ => st.saveError (.typeError "payload")
  else if keyMatches key "type" then
    match v with
    | .num raw =>
      match parseInt64 raw with
      | some n => { st with msg := { st.msg with Type_ := n } }
      | none => st.saveError (.typeError "type")
    | .null => st
    | _ => st.saveError (.typeError "type")
  else st

/-- The zero value of `Message` (`var msg Message`). -/
def Message.zero : Message :=
  { SourceChain := "", SourceAddress := "", Payload := [], Type_ := 0 }

/-- Model of `json.Unmarshal([]byte(memo), &msg)` for a zero-valued `msg`: the filled
struct, or the returned error.  JSON `null` stores nothing; a JSON value that is neither
`null` nor an object is an `UnmarshalTypeError`. -/
def jsonUnmarshal (memo : String) : Except JsonError Message :=
  match parseJson memo with
  | none => .error .syntaxError
  | some .null => .ok Message.zero
  | some (.obj members) =>
    let st := members.foldl (fun st kv => storeMember st kv.1 kv.2) ⟨Message.zero, none⟩
    match st.saved with
    | some e => .error e
    | none => .ok st.msg
  | some _ => .error (.typeError "")

/-! ## Collaborators of the middleware -/

/-- The ICS-20 packet payload `transfertypes.FungibleTokenPacketData`. -/
structure FungibleTokenPacketData where
  Denom : String
  Amount : String
  Sender : String
  Receiver : String
  Memo : String
  deriving DecidableEq, Repr

/-- A coin `sdk.Coin`. -/
structure Coin where
  Denom : String
  Amount : Int
  deriving DecidableEq, Repr

/-- An `ibcexported.Acknowledgement`. -/
inductive Acknowledgement where
  /-- An acknowledgement made by the wrapped module, seen through its interface: what
  `Success()` answers and the bytes of `Acknowledgement()`. -/
  | ofApp (success : Bool) (bytes : List Nat)
  /-- The value `channeltypes.NewErrorAcknowledgement(err)`; the model keeps the cause. -/
  | error (cause : GoError)
  deriving DecidableEq, Repr

/-- The method `Success()`. -/
def Acknowledgement.Success : Acknowledgement → Bool
  | .ofApp success _ => success
  | .error _ => false

/-- Model of `channeltypes.NewErrorAcknowledgement`. -/
def NewErrorAcknowledgement (err : GoError) : Acknowledgement := .error err

/-- The wrapped `porttypes.IBCModule`, restricted to the callback used on receive. -/
structure IBCModule where
  OnRecvPacket : Packet → String → Acknowledgement

/-- The interface `GeneralMessageHandler`; a method returns its error, `none` for `nil`. -/
structure GeneralMessageHandler where
  HandleGeneralMessage : String → String → String → List Nat → Option GoError
  HandleGeneralMessageWithToken : String → String → String → List Nat → Coin → Option GoError

/-- The struct `IBCMiddleware`. -/
structure IBCMiddleware where
  app : IBCModule
  handler : GeneralMessageHandler

/-- Library functions of the Cosmos SDK and ibc-go that the middleware calls and that
are not modelled further. -/
structure External where
  /-- The codec call `types.ModuleCdc.UnmarshalJSON` on the packet data. -/
  UnmarshalJSON : List Nat → Except GoError FungibleTokenPacketData
  /-- The parser `sdk.NewIntFromString`: `none` when `ok` is false. -/
  NewIntFromString : String → Option Int
  /-- The check `sdk.ValidateDenom`: its error, `none` for `nil`. -/
  ValidateDenom : String → Option GoError
  /-- The SHA-256 digest of a full denomination path, in upper-case hexadecimal. -/
  hash : String → String

/-- The registered error `transfertypes.ErrInvalidAmount`. -/
def ErrInvalidAmount : GoError := .msg "invalid token amount"

/-- Model of `sdk.NewCoin`: it panics when `Coin.Validate` fails, that is on an invalid
denomination or a negative amount. -/
def NewCoin (ext : External) (denom : String) (amount : Int) : Outcome Coin :=
  match ext.ValidateDenom denom with
  | some err => .panicked err
  | none =>
    if amount < 0 then .panicked (.msg ("negative coin amount: " ++ toString amount))
    else .returned { Denom := denom, Amount := amount }

/-- A step of `OnRecvPacket` that reaches outside of it, in the order of execution. -/
inductive Event where
  /-- The call `im.app.OnRecvPacket(ctx, packet, relayer)`. -/
  | appOnRecvPacket (packet : Packet) (relayer : String)
  /-- The call `types.ModuleCdc.UnmarshalJSON(packet.GetData(), &data)`. -/
  | unmarshalPacketData (data : List Nat)
  /-- The call `json.Unmarshal([]byte(data.GetMemo()), &msg)`. -/
  | unmarshalMemo (memo : String)
  /-- The call `parseDenom(packet, data.Denom)`. -/
  | parseDenom (denom : String)
  /-- The call `im.handler.HandleGeneralMessage(ctx, ...)`. -/
  | HandleGeneralMessage (srcChain srcAddress destAddress : String) (payload : List Nat)
  /-- The call `im.handler.HandleGeneralMessageWithToken(ctx, ...)`. -/
  | HandleGeneralMessageWithToken (srcChain srcAddress destAddress : String)
      (payload : List Nat) (coin : Coin)
  deriving DecidableEq, Repr

/-- Whether an event is a call of one of the two handler methods. -/
def Event.isHandlerCall : Event → Bool
  | .HandleGeneralMessage _ _ _ _ => true
  | .HandleGeneralMessageWithToken _ _ _ _ _ => true
  | _ => false

/-- One execution of `OnRecvPacket`: how it ended and what it called. -/
structure Run where
  outcome : Outcome Acknowledgement
  trace : List Event
  deriving DecidableEq, Repr

/-- The handler calls of a run. -/
def Run.handlerCalls (r : Run) : List Event :=
  r.trace.filter Event.isHandlerCall

/-- The end of both `OnRecvPacket` variants: `if err != nil` an error acknowledgement
made of `err`, else the acknowledgement of the wrapped module. -/
def ackOfErr (ack : Acknowledgement) (err : Option GoError) : Outcome Acknowledgement :=
  match err with
  | some e => .returned (NewErrorAcknowledgement e)
  | none => .returned ack

/-! ## `gmp_middleware/middleware.go` -/

/-- The method `IBCMiddleware.OnRecvPacket` of `gmp_middleware/middleware.go`. -/
def OnRecvPacket (ext : External) (im : IBCMiddleware) (packet : Packet) (relayer : String) :
    Run :=
  let ack := im.app.OnRecvPacket packet relayer
  let t1 := [Event.appOnRecvPacket packet relayer]
  if !ack.Success then ⟨.returned ack, t1⟩
  else
    let t2 := t1 ++ [Event.unmarshalPacketData packet.Data]
    match ext.UnmarshalJSON packet.Data with
    | .error err =>
      ⟨.returned (NewErrorAcknowledgement
        (.wrap "failed to unmarshal ICS-20 transfer packet data" err)), t2⟩
    | .ok data =>
      if data.Sender ≠ AxelarGMPAcc then ⟨.returned ack, t2⟩
      else
        let t3 := t2 ++ [Event.unmarshalMemo data.Memo]
        match jsonUnmarshal data.Memo with
        | .error err =>
          ⟨.returned (NewErrorAcknowledgement (.wrap "failed to unmarshal memo" (.json err))), t3⟩
        | .ok msg =>
          if msg.Type_ = TypeGeneralMessage then
            ⟨ackOfErr ack (im.handler.HandleGeneralMessage msg.SourceChain msg.SourceAddress
                data.Receiver msg.Payload),
              t3 ++ [Event.HandleGeneralMessage msg.SourceChain msg.SourceAddress
                data.Receiver msg.Payload]⟩
          else if msg.Type_ = TypeGeneralMessageWithToken then
            match ext.NewIntFromString data.Amount with
            | none =>
              ⟨.returned (NewErrorAcknowledgement (.sdkWrap ErrInvalidAmount
                ("invalid transfer amount: " ++ data.Amount))), t3⟩
            | some amt =>
              let t4 := t3 ++ [Event.parseDenom data.Denom]
              match parseDenom ext.hash packet data.Denom with
              | .panicked reason => ⟨.panicked reason, t4⟩
              | .returned denom =>
                match NewCoin ext denom amt with
                | .panicked reason => ⟨.panicked reason, t4⟩
                | .returned coin =>
                  ⟨ackOfErr ack (im.handler.HandleGeneralMessageWithToken msg.SourceChain
                      msg.SourceAddress data.Receiver msg.Payload coin),
                    t4 ++ [Event.HandleGeneralMessageWithToken msg.SourceChain
                      msg.SourceAddress data.Receiver msg.Payload coin]⟩
          else
            ⟨ackOfErr ack (some (.msg ("unrecognized message type: " ++ fmtInt msg.Type_))), t3⟩

end GmpMiddleware

/-! ## `send-receive/cosmos/gmp_middleware.go`

The second middleware is a file of a package that is also called `gmp_middleware`; it
uses `AxelarGMPAcc`, `Message`, the message-type constants and `parseDenom` of that
package, which are the declarations of `types.go` above. -/

namespace SendReceive

open GmpMiddleware

/-- The method `IBCMiddleware.OnRecvPacket` of `send-receive/cosmos/gmp_middleware.go`. -/
def OnRecvPacket (ext : External) (im : IBCMiddleware) (packet : Packet) (relayer : String) :
    Run :=
  let ack := im.app.OnRecvPacket packet relayer
  let t1 := [Event.appOnRecvPacket packet relayer]
  if !ack.Success then ⟨.returned ack, t1⟩
  else
    let t2 := t1 ++ [Event.unmarshalPacketData packet.Data]
    match ext.UnmarshalJSON packet.Data with
    | .error err =>
      ⟨.returned (NewErrorAcknowledgement
        (.wrap "cannot unmarshal ICS-20 transfer packet data" err)), t2⟩
    | .ok data =>
      if data.Sender ≠ AxelarGMPAcc then
        ⟨.returned (NewErrorAcknowledgement (.msg ("unauthorized sender: " ++ data.Sender))), t2⟩
      else
        let t3 := t2 ++ [Event.unmarshalMemo data.Memo]
        match jsonUnmarshal data.Memo with
        | .error err =>
          ⟨.returned (NewErrorAcknowledgement (.wrap "cannot unmarshal memo" (.json err))), t3⟩
        | .ok msg =>
          if msg.Type_ = TypeGeneralMessage then
            ⟨ackOfErr ack (im.handler.HandleGeneralMessage msg.SourceChain msg.SourceAddress
                data.Receiver msg.Payload),
              t3 ++ [Event.HandleGeneralMessage msg.SourceChain msg.SourceAddress
                data.Receiver msg.Payload]⟩
          else if msg.Type_ = TypeGeneralMessageWithToken then
            match ext.NewIntFromString data.Amount with
            | none =>
              ⟨.returned (NewErrorAcknowledgement (.sdkWrap ErrInvalidAmount
                ("invalid transfer amount: " ++ data.Amount))), t3⟩
            | some amt =>
              let t4 := t3 ++ [Event.parseDenom data.Denom]
              match parseDenom ext.hash packet data.Denom with
              | .panicked reason => ⟨.panicked reason, t4⟩
              | .returned denom =>
                match NewCoin ext denom amt with
                | .panicked reason => ⟨.panicked reason, t4⟩
                | .returned coin =>
                  ⟨ackOfErr ack (im.handler.HandleGeneralMessageWithToken msg.SourceChain
                      msg.SourceAddress data.Receiver msg.Payload coin),
                    t4 ++ [Event.HandleGeneralMessageWithToken msg.SourceChain
                      msg.SourceAddress data.Receiver msg.Payload coin]⟩
          else
            ⟨ackOfErr ack (some (.msg ("unrecognized message type: " ++ fmtInt msg.Type_))), t3⟩

end SendReceive

/-! ## Concrete collaborators for the examples -/

namespace GmpMiddleware

/-- The default denomination check of the SDK, the regular expression
`[a-zA-Z][a-zA-Z0-9/:._-]{2,127}`. -/
def sdkValidateDenom (denom : String) : Option GoError :=
  let okTail (c : Char) : Bool :=
    c.isAlphanum || c = '/' || c = ':' || c = '.' || c = '_' || c = '-'
  match denom.data with
  | c :: cs =>
    if c.isAlpha && cs.all okTail && 2 ≤ cs.length && cs.length ≤ 127 then none
    else some (.msg ("invalid denom: " ++ denom))
  | [] => some (.msg ("invalid denom: " ++ denom))

/-- What the scanner of `math/big` saw last: nothing that counts, a digit (or the
leading `0` of a base prefix), or the separator `_`. -/
inductive ScanPrev where
  | other
  | digit
  | separator
  deriving DecidableEq, Repr

/-- Value of a character as a digit in a base up to 36 (`nat.scan`): `0`-`9`, then the
letters in either case from 10 on; any other character is above every base. -/
def bigDigitValue (c : Char) : Nat :=
  if '0' ≤ c ∧ c ≤ '9' then c.toNat - '0'.toNat
  else if 'a' ≤ c ∧ c ≤ 'z' then c.toNat - 'a'.toNat + 10
  else if 'A' ≤ c ∧ c ≤ 'Z' then c.toNat - 'A'.toNat + 10
  else 63

/-- The digit loop of `nat.scan` for base argument 0, in actual base `b`: digits and
separators `_` up to the end of the input.  It fails on a character that is no digit of
the base (the whole string must be used up), on a separator that does not follow a
digit or ends the input, and when no digit was found. -/
def scanBigDigits (b : Nat) : List Char → ScanPrev → Bool → Nat → Nat → Option Nat
  | [], prev, invalSep, count, acc =>
    if invalSep || prev = .separator || count = 0 then none else some acc
  | c :: cs, prev, invalSep, count, acc =>
    if c = '_' then
      scanBigDigits b cs .separator (invalSep || prev ≠ .digit) count acc
    else if bigDigitValue c < b then
      scanBigDigits b cs .digit invalSep (count + 1) (acc * b + bigDigitValue c)
    else none

/-- Model of `new(big.Int).SetString(s, 0)`: an optional sign, then a number whose
prefix selects the base (`0b` 2, `0o` or a plain leading `0` 8, `0x` 16, none 10), with
`_` allowed between digits and after a prefix. -/
def bigIntSetStringBase0 (s : String) : Option Int :=
  let signed : Bool × List Char :=
    match s.data with
    | '-' :: r => (true, r)
    | '+' :: r => (false, r)
    | r => (false, r)
  let magnitude : Option Nat :=
    match signed.2 with
    | ['0'] => some 0
    | '0' :: c :: more =>
      if c = 'b' ∨ c = 'B' then scanBigDigits 2 more .digit false 0 0
      else if c = 'o' ∨ c = 'O' then scanBigDigits 8 more .digit false 0 0
      else if c = 'x' ∨ c = 'X' then scanBigDigits 16 more .digit false 0 0
      else scanBigDigits 8 (c :: more) .digit false 0 0
    | rest => scanBigDigits 10 rest .other false 0 0
  match magnitude with
  | some v => some (if signed.1 then -(v : Int) else (v : Int))
  | none => none

/-- Model of `sdk.NewIntFromString`: `big.Int.SetString` with base 0, refused beyond
256 bits (`maxBitLen`). -/
def sdkNewIntFromString (s : String) : Option Int :=
  match bigIntSetStringBase0 s with
  | some v => if v.natAbs < 2 ^ 256 then some v else none
  | none => none

/-- A decimal integer: an optional sign followed by one or more decimal digits. -/
def isDecimalInteger (s : String) : Bool :=
  match s.data with
  | '-' :: ds => (decimalValue ds).isSome
  | '+' :: ds => (decimalValue ds).isSome
  | ds => (decimalValue ds).isSome

/-- A stand-in for the SHA-256 digest: a tag in front of its argument with `/` replaced
by `.`; like the hexadecimal digest it contains no `/`. -/
def taggedDigest (s : String) : String :=
  "DIGEST-" ++ String.mk (s.data.map (fun c => if c = '/' then '.' else c))

/-- An `External` whose codec decodes every packet payload to `data`. -/
def externalDecodingTo (data : FungibleTokenPacketData) : External where
  UnmarshalJSON := fun _ => .ok data
  NewIntFromString := sdkNewIntFromString
  ValidateDenom := sdkValidateDenom
  hash := taggedDigest

/-- A wrapped module that acknowledges every packet with the result bytes `[1]`. -/
def acceptingApp : IBCModule where
  OnRecvPacket := fun _ _ => .ofApp true [1]

/-- A wrapped module that refuses every packet. -/
def refusingApp : IBCModule where
  OnRecvPacket := fun _ _ => .ofApp false [0]

/-- A handler whose two methods return `err`. -/
def handlerReturning (err : Option GoError) : GeneralMessageHandler where
  HandleGeneralMessage := fun _ _ _ _ => err
  HandleGeneralMessageWithToken := fun _ _ _ _ _ => err

/-- A packet arriving on `transfer/channel-7` from `transfer/channel-0`. -/
def samplePacket : Packet :=
  { Sequence := 1, SourcePort := "transfer", SourceChannel := "channel-0",
    DestinationPort := "transfer", DestinationChannel := "channel-7", Data := [] }

/-- A packet sent from `transfer/channel-3` that arrives on the given port and channel. -/
def packetArrivingOn (port channel : String) : Packet :=
  { Sequence := 2, SourcePort := "transfer", SourceChannel := "channel-3",
    DestinationPort := port, DestinationChannel := channel, Data := [] }

/-- The memo of a general message: source chain `ethereum`, source address `0xAA`,
payload `hi` (base64 `aGk=`), type 1. -/
def memoGeneralMessage : String :=
  "\x7b\"source_chain\":\"ethereum\",\"source_address\":\"0xAA\",\"payload\":\"aGk=\",\"type\":1\x7d"

/-- The same memo with type 2, a general message with token. -/
def memoGeneralMessageWithToken : String :=
  "\x7b\"source_chain\":\"ethereum\",\"source_address\":\"0xAA\",\"payload\":\"aGk=\",\"type\":2\x7d"

/-- A memo of type 1 with `source_chain` and `payload` set and no `source_address`. -/
def memoWithoutSourceAddress : String :=
  "\x7b\"source_chain\":\"ethereum\",\"payload\":\"aGk=\",\"type\":1\x7d"

/-- A transfer of `uusdc` sent by the authorized account (the empty string) to
`axelar1recv`, with the given amount and memo. -/
def transferFromGateway (amount memo : String) : FungibleTokenPacketData :=
  { Denom := "uusdc", Amount := amount, Sender := AxelarGMPAcc, Receiver := "axelar1recv",
    Memo := memo }

/-- The middleware around the accepting module and a handler that succeeds. -/
def sampleMiddleware : IBCMiddleware :=
  { app := acceptingApp, handler := handlerReturning none }

/-- A transfer of `uusdc` sent by `cosmos1stranger`, an account other than the authorized
one, with the memo of a general message. -/
def transferFromStranger : FungibleTokenPacketData :=
  { Denom := "uusdc", Amount := "100", Sender := "cosmos1stranger",
    Receiver := "axelar1recv", Memo := memoGeneralMessage }

/-- Two runs end with the same acknowledgement variant: both return the same
acknowledgement of the wrapped module, or both return an error acknowledgement (whatever
the causes), or both panic for the same reason. -/
def sameVariant : Outcome Acknowledgement → Outcome Acknowledgement → Bool
  | .returned (.ofApp s b), .returned (.ofApp s2 b2) => decide (s = s2 ∧ b = b2)
  | .returned (.error _), .returned (.error _) => true
  | .panicked r, .panicked r2 => decide (r = r2)
  | _, _ => false

end GmpMiddleware

/-! ## Theorems -/

open GmpMiddleware

/-- C5: when the wrapped module's acknowledgement has `Success()` false, both
`OnRecvPacket` variants return exactly that acknowledgement, and the call of the
wrapped module is the only step taken: neither the payload nor the memo is decoded
and no handler is called. -/
theorem failed_base_ack_returned_at_once (ext : External) (im : IBCMiddleware)
    (packet : Packet) (relayer : String)
    (hfail : (im.app.OnRecvPacket packet relayer).Success = false) :
    GmpMiddleware.OnRecvPacket ext im packet relayer
        = ⟨.returned (im.app.OnRecvPacket packet relayer),
            [Event.appOnRecvPacket packet relayer]⟩
      ∧ SendReceive.OnRecvPacket ext im packet relayer
        = ⟨.returned (im.app.OnRecvPacket packet relayer),
            [Event.appOnRecvPacket packet relayer]⟩ := by
  constructor
  · simp [GmpMiddleware.OnRecvPacket, hfail]
  · simp [SendReceive.OnRecvPacket, hfail]

/-- Witness for C5: a refusing wrapped module, a handler that would succeed. -/
theorem failed_base_ack_returned_at_once_witness :
    GmpMiddleware.OnRecvPacket (externalDecodingTo ⟨"uusdc", "100", "", "axelar1recv", ""⟩)
        ⟨refusingApp, handlerReturning none⟩ samplePacket "relayer"
        = ⟨.returned (.ofApp false [0]), [Event.appOnRecvPacket samplePacket "relayer"]⟩
      ∧ SendReceive.OnRecvPacket (externalDecodingTo ⟨"uusdc", "100", "", "axelar1recv", ""⟩)
        ⟨refusingApp, handlerReturning none⟩ samplePacket "relayer"
        = ⟨.returned (.ofApp false [0]), [Event.appOnRecvPacket samplePacket "relayer"]⟩ :=
  failed_base_ack_returned_at_once (externalDecodingTo ⟨"uusdc", "100", "", "axelar1recv", ""⟩)
    ⟨refusingApp, handlerReturning none⟩ samplePacket "relayer" (by decide)

/-! ### The paths of `GmpMiddleware.OnRecvPacket` -/

/-- Path of `GmpMiddleware.OnRecvPacket`: the transfer payload does not decode. -/
theorem gmp_run_undecodable (ext : External) (im : IBCMiddleware) (packet : Packet) (relayer : String)
    (hack : (im.app.OnRecvPacket packet relayer).Success = true)
    (err : GoError) (hdata : ext.UnmarshalJSON packet.Data = .error err) :
    GmpMiddleware.OnRecvPacket ext im packet relayer
      = ⟨.returned (NewErrorAcknowledgement (.wrap "failed to unmarshal ICS-20 transfer packet data" err)),
          [Event.appOnRecvPacket packet relayer, Event.unmarshalPacketData packet.Data]⟩ := by
  simp [GmpMiddleware.OnRecvPacket, hack, hdata]

/-- Path of `GmpMiddleware.OnRecvPacket`: the sender is not the authorized account. -/
theorem gmp_run_unauthorized (ext : External) (im : IBCMiddleware) (packet : Packet) (relayer : String)
    (hack : (im.app.OnRecvPacket packet relayer).Success = true)
    (data : FungibleTokenPacketData) (hdata : ext.UnmarshalJSON packet.Data = .ok data)
    (hsender : data.Sender ≠ AxelarGMPAcc) :
    GmpMiddleware.OnRecvPacket ext im packet relayer
      = ⟨.returned (im.app.OnRecvPacket packet relayer),
          [Event.appOnRecvPacket packet relayer, Event.unmarshalPacketData packet.Data]⟩ := by
  simp [GmpMiddleware.OnRecvPacket, hack, hdata, hsender]

/-- Path of `GmpMiddleware.OnRecvPacket`: the memo does not decode. -/
theorem gmp_run_bad_memo (ext : External) (im : IBCMiddleware) (packet : Packet) (relayer : String)
    (hack : (im.app.OnRecvPacket packet relayer).Success = true)
    (data : FungibleTokenPacketData) (hdata : ext.UnmarshalJSON packet.Data = .ok data)
    (hsender : data.Sender = AxelarGMPAcc)
    (err : JsonError) (hmemo : jsonUnmarshal data.Memo = .error err) :
    GmpMiddleware.OnRecvPacket ext im packet relayer
      = ⟨.returned (NewErrorAcknowledgement (.wrap "failed to unmarshal memo" (.json err))),
          [Event.appOnRecvPacket packet relayer, Event.unmarshalPacketData packet.Data,
            Event.unmarshalMemo data.Memo]⟩ := by
  simp [GmpMiddleware.OnRecvPacket, hack, hdata, hsender, hmemo]

/-- Path of `GmpMiddleware.OnRecvPacket`: a general message. -/
theorem gmp_run_message (ext : External) (im : IBCMiddleware) (packet : Packet) (relayer : String)
    (hack : (im.app.OnRecvPacket packet relayer).Success = true)
    (data : FungibleTokenPacketData) (hdata : ext.UnmarshalJSON packet.Data = .ok data)
    (hsender : data.Sender = AxelarGMPAcc)
    (msg : Message) (hmemo : jsonUnmarshal data.Memo = .ok msg)
    (htype : msg.Type_ = TypeGeneralMessage) :
    GmpMiddleware.OnRecvPacket ext im packet relayer
      = ⟨ackOfErr (im.app.OnRecvPacket packet relayer)
            (im.handler.HandleGeneralMessage msg.SourceChain msg.SourceAddress data.Receiver
              msg.Payload),
          [Event.appOnRecvPacket packet relayer, Event.unmarshalPacketData packet.Data,
            Event.unmarshalMemo data.Memo,
            Event.HandleGeneralMessage msg.SourceChain msg.SourceAddress data.Receiver
              msg.Payload]⟩ := by
  simp [GmpMiddleware.OnRecvPacket, hack, hdata, hsender, hmemo, htype]

/-- Path of `GmpMiddleware.OnRecvPacket`: a message with token whose amount does not parse. -/
theorem gmp_run_token_bad_amount (ext : External) (im : IBCMiddleware) (packet : Packet) (relayer : String)
    (hack : (im.app.OnRecvPacket packet relayer).Success = true)
    (data : FungibleTokenPacketData) (hdata : ext.UnmarshalJSON packet.Data = .ok data)
    (hsender : data.Sender = AxelarGMPAcc)
    (msg : Message) (hmemo : jsonUnmarshal data.Memo = .ok msg)
    (htype : msg.Type_ = TypeGeneralMessageWithToken)
    (hamount : ext.NewIntFromString data.Amount = none) :
    GmpMiddleware.OnRecvPacket ext im packet relayer
      = ⟨.returned (NewErrorAcknowledgement (.sdkWrap ErrInvalidAmount
            ("invalid transfer amount: " ++ data.Amount))),
          [Event.appOnRecvPacket packet relayer, Event.unmarshalPacketData packet.Data,
            Event.unmarshalMemo data.Memo]⟩ := by
  simp [GmpMiddleware.OnRecvPacket, hack, hdata, hsender, hmemo, htype, hamount,
    TypeGeneralMessage, TypeGeneralMessageWithToken]

/-- Path of `GmpMiddleware.OnRecvPacket`: a message with token, `parseDenom` panics. -/
theorem gmp_run_token_denom_panic (ext : External) (im : IBCMiddleware) (packet : Packet) (relayer : String)
    (hack : (im.app.OnRecvPacket packet relayer).Success = true)
    (data : FungibleTokenPacketData) (hdata : ext.UnmarshalJSON packet.Data = .ok data)
    (hsender : data.Sender = AxelarGMPAcc)
    (msg : Message) (hmemo : jsonUnmarshal data.Memo = .ok msg)
    (htype : msg.Type_ = TypeGeneralMessageWithToken)
    (amt : Int) (hamount : ext.NewIntFromString data.Amount = some amt)
    (reason : GoError) (hdenom : parseDenom ext.hash packet data.Denom = .panicked reason) :
    GmpMiddleware.OnRecvPacket ext im packet relayer
      = ⟨.panicked reason,
          [Event.appOnRecvPacket packet relayer, Event.unmarshalPacketData packet.Data,
            Event.unmarshalMemo data.Memo, Event.parseDenom data.Denom]⟩ := by
  simp [GmpMiddleware.OnRecvPacket, hack, hdata, hsender, hmemo, htype, hamount, hdenom,
    TypeGeneralMessage, TypeGeneralMessageWithToken]

/-- Path of `GmpMiddleware.OnRecvPacket`: a message with token, `sdk.NewCoin` panics. -/
theorem gmp_run_token_coin_panic (ext : External) (im : IBCMiddleware) (packet : Packet) (relayer : String)
    (hack : (im.app.OnRecvPacket packet relayer).Success = true)
    (data : FungibleTokenPacketData) (hdata : ext.UnmarshalJSON packet.Data = .ok data)
    (hsender : data.Sender = AxelarGMPAcc)
    (msg : Message) (hmemo : jsonUnmarshal data.Memo = .ok msg)
    (htype : msg.Type_ = TypeGeneralMessageWithToken)
    (amt : Int) (hamount : ext.NewIntFromString data.Amount = some amt)
    (denom : String) (hdenom : parseDenom ext.hash packet data.Denom = .returned denom)
    (reason : GoError) (hcoin : NewCoin ext denom amt = .panicked reason) :
    GmpMiddleware.OnRecvPacket ext im packet relayer
      = ⟨.panicked reason,
          [Event.appOnRecvPacket packet relayer, Event.unmarshalPacketData packet.Data,
            Event.unmarshalMemo data.Memo, Event.parseDenom data.Denom]⟩ := by
  simp [GmpMiddleware.OnRecvPacket, hack, hdata, hsender, hmemo, htype, hamount, hdenom, hcoin,
    TypeGeneralMessage, TypeGeneralMessageWithToken]

/-- Path of `GmpMiddleware.OnRecvPacket`: a message with token reaching the handler. -/
theorem gmp_run_token (ext : External) (im : IBCMiddleware) (packet : Packet) (relayer : String)
    (hack : (im.app.OnRecvPacket packet relayer).Success = true)
    (data : FungibleTokenPacketData) (hdata : ext.UnmarshalJSON packet.Data = .ok data)
    (hsender : data.Sender = AxelarGMPAcc)
    (msg : Message) (hmemo : jsonUnmarshal data.Memo = .ok msg)
    (htype : msg.Type_ = TypeGeneralMessageWithToken)
    (amt : Int) (hamount : ext.NewIntFromString data.Amount = some amt)
    (denom : String) (hdenom : parseDenom ext.hash packet data.Denom = .returned denom)
    (coin : Coin) (hcoin : NewCoin ext denom amt = .returned coin) :
    GmpMiddleware.OnRecvPacket ext im packet relayer
      = ⟨ackOfErr (im.app.OnRecvPacket packet relayer)
            (im.handler.HandleGeneralMessageWithToken msg.SourceChain msg.SourceAddress
              data.Receiver msg.Payload coin),
          [Event.appOnRecvPacket packet relayer, Event.unmarshalPacketData packet.Data,
            Event.unmarshalMemo data.Memo, Event.parseDenom data.Denom,
            Event.HandleGeneralMessageWithToken msg.SourceChain msg.SourceAddress
              data.Receiver msg.Payload coin]⟩ := by
  simp [GmpMiddleware.OnRecvPacket, hack, hdata, hsender, hmemo, htype, hamount, hdenom, hcoin,
    TypeGeneralMessage, TypeGeneralMessageWithToken]

/-- Path of `GmpMiddleware.OnRecvPacket`: any other message type. -/
theorem gmp_run_unrecognized (ext : External) (im : IBCMiddleware) (packet : Packet) (relayer : String)
    (hack : (im.app.OnRecvPacket packet relayer).Success = true)
    (data : FungibleTokenPacketData) (hdata : ext.UnmarshalJSON packet.Data = .ok data)
    (hsender : data.Sender = AxelarGMPAcc)
    (msg : Message) (hmemo : jsonUnmarshal data.Memo = .ok msg)
    (h1 : msg.Type_ ≠ TypeGeneralMessage) (h2 : msg.Type_ ≠ TypeGeneralMessageWithToken) :
    GmpMiddleware.OnRecvPacket ext im packet relayer
      = ⟨.returned (NewErrorAcknowledgement
            (.msg ("unrecognized message type: " ++ fmtInt msg.Type_))),
          [Event.appOnRecvPacket packet relayer, Event.unmarshalPacketData packet.Data,
            Event.unmarshalMemo data.Memo]⟩ := by
  simp [GmpMiddleware.OnRecvPacket, hack, hdata, hsender, hmemo, h1, h2, ackOfErr]

/-! ### The paths of `SendReceive.OnRecvPacket` -/

/-- Path of `SendReceive.OnRecvPacket`: the transfer payload does not decode. -/
theorem sr_run_undecodable (ext : External) (im : IBCMiddleware) (packet : Packet) (relayer : String)
    (hack : (im.app.OnRecvPacket packet relayer).Success = true)
    (err : GoError) (hdata : ext.UnmarshalJSON packet.Data = .error err) :
    SendReceive.OnRecvPacket ext im packet relayer
      = ⟨.returned (NewErrorAcknowledgement (.wrap "cannot unmarshal ICS-20 transfer packet data" err)),
          [Event.appOnRecvPacket packet relayer, Event.unmarshalPacketData packet.Data]⟩ := by
  simp [SendReceive.OnRecvPacket, hack, hdata]

/-- Path of `SendReceive.OnRecvPacket`: the sender is not the authorized account. -/
theorem sr_run_unauthorized (ext : External) (im : IBCMiddleware) (packet : Packet) (relayer : String)
    (hack : (im.app.OnRecvPacket packet relayer).Success = true)
    (data : FungibleTokenPacketData) (hdata : ext.UnmarshalJSON packet.Data = .ok data)
    (hsender : data.Sender ≠ AxelarGMPAcc) :
    SendReceive.OnRecvPacket ext im packet relayer
      = ⟨.returned (NewErrorAcknowledgement (.msg ("unauthorized sender: " ++ data.Sender))),
          [Event.appOnRecvPacket packet relayer, Event.unmarshalPacketData packet.Data]⟩ := by
  simp [SendReceive.OnRecvPacket, hack, hdata, hsender]

/-- Path of `SendReceive.OnRecvPacket`: the memo does not decode. -/
theorem sr_run_bad_memo (ext : External) (im : IBCMiddleware) (packet : Packet) (relayer : String)
    (hack : (im.app.OnRecvPacket packet relayer).Success = true)
    (data : FungibleTokenPacketData) (hdata : ext.UnmarshalJSON packet.Data = .ok data)
    (hsender : data.Sender = AxelarGMPAcc)
    (err : JsonError) (hmemo : jsonUnmarshal data.Memo = .error err) :
    SendReceive.OnRecvPacket ext im packet relayer
      = ⟨.returned (NewErrorAcknowledgement (.wrap "cannot unmarshal memo" (.json err))),
          [Event.appOnRecvPacket packet relayer, Event.unmarshalPacketData packet.Data,
            Event.unmarshalMemo data.Memo]⟩ := by
  simp [SendReceive.OnRecvPacket, hack, hdata, hsender, hmemo]

/-- Path of `SendReceive.OnRecvPacket`: a general message. -/
theorem sr_run_message (ext : External) (im : IBCMiddleware) (packet : Packet) (relayer : String)
    (hack : (im.app.OnRecvPacket packet relayer).Success = true)
    (data : FungibleTokenPacketData) (hdata : ext.UnmarshalJSON packet.Data = .ok data)
    (hsender : data.Sender = AxelarGMPAcc)
    (msg : Message) (hmemo : jsonUnmarshal data.Memo = .ok msg)
    (htype : msg.Type_ = TypeGeneralMessage) :
    SendReceive.OnRecvPacket ext im packet relayer
      = ⟨ackOfErr (im.app.OnRecvPacket packet relayer)
            (im.handler.HandleGeneralMessage msg.SourceChain msg.SourceAddress data.Receiver
              msg.Payload),
          [Event.appOnRecvPacket packet relayer, Event.unmarshalPacketData packet.Data,
            Event.unmarshalMemo data.Memo,
            Event.HandleGeneralMessage msg.SourceChain msg.SourceAddress data.Receiver
              msg.Payload]⟩ := by
  simp [SendReceive.OnRecvPacket, hack, hdata, hsender, hmemo, htype]

/-- Path of `SendReceive.OnRecvPacket`: a message with token whose amount does not parse. -/
theorem sr_run_token_bad_amount (ext : External) (im : IBCMiddleware) (packet : Packet) (relayer : String)
    (hack : (im.app.OnRecvPacket packet relayer).Success = true)
    (data : FungibleTokenPacketData) (hdata : ext.UnmarshalJSON packet.Data = .ok data)
    (hsender : data.Sender = AxelarGMPAcc)
    (msg : Message) (hmemo : jsonUnmarshal data.Memo = .ok msg)
    (htype : msg.Type_ = TypeGeneralMessageWithToken)
    (hamount : ext.NewIntFromString data.Amount = none) :
    SendReceive.OnRecvPacket ext im packet relayer
      = ⟨.returned (NewErrorAcknowledgement (.sdkWrap ErrInvalidAmount
            ("invalid transfer amount: " ++ data.Amount))),
          [Event.appOnRecvPacket packet relayer, Event.unmarshalPacketData packet.Data,
            Event.unmarshalMemo data.Memo]⟩ := by
  simp [SendReceive.OnRecvPacket, hack, hdata, hsender, hmemo, htype, hamount,
    TypeGeneralMessage, TypeGeneralMessageWithToken]

/-- Path of `SendReceive.OnRecvPacket`: a message with token, `parseDenom` panics. -/
theorem sr_run_token_denom_panic (ext : External) (im : IBCMiddleware) (packet : Packet) (relayer : String)
    (hack : (im.app.OnRecvPacket packet relayer).Success = true)
    (data : FungibleTokenPacketData) (hdata : ext.UnmarshalJSON packet.Data = .ok data)
    (hsender : data.Sender = AxelarGMPAcc)
    (msg : Message) (hmemo : jsonUnmarshal data.Memo = .ok msg)
    (htype : msg.Type_ = TypeGeneralMessageWithToken)
    (amt : Int) (hamount : ext.NewIntFromString data.Amount = some amt)
    (reason : GoError) (hdenom : parseDenom ext.hash packet data.Denom = .panicked reason) :
    SendReceive.OnRecvPacket ext im packet relayer
      = ⟨.panicked reason,
          [Event.appOnRecvPacket packet relayer, Event.unmarshalPacketData packet.Data,
            Event.unmarshalMemo data.Memo, Event.parseDenom data.Denom]⟩ := by
  simp [SendReceive.OnRecvPacket, hack, hdata, hsender, hmemo, htype, hamount, hdenom,
    TypeGeneralMessage, TypeGeneralMessageWithToken]

/-- Path of `SendReceive.OnRecvPacket`: a message with token, `sdk.NewCoin` panics. -/
theorem sr_run_token_coin_panic (ext : External) (im : IBCMiddleware) (packet : Packet) (relayer : String)
    (hack : (im.app.OnRecvPacket packet relayer).Success = true)
    (data : FungibleTokenPacketData) (hdata : ext.UnmarshalJSON packet.Data = .ok data)
    (hsender : data.Sender = AxelarGMPAcc)
    (msg : Message) (hmemo : jsonUnmarshal data.Memo = .ok msg)
    (htype : msg.Type_ = TypeGeneralMessageWithToken)
    (amt : Int) (hamount : ext.NewIntFromString data.Amount = some amt)
    (denom : String) (hdenom : parseDenom ext.hash packet data.Denom = .returned denom)
    (reason : GoError) (hcoin : NewCoin ext denom amt = .panicked reason) :
    SendReceive.OnRecvPacket ext im packet relayer
      = ⟨.panicked reason,
          [Event.appOnRecvPacket packet relayer, Event.unmarshalPacketData packet.Data,
            Event.unmarshalMemo data.Memo, Event.parseDenom data.Denom]⟩ := by
  simp [SendReceive.OnRecvPacket, hack, hdata, hsender, hmemo, htype, hamount, hdenom, hcoin,
    TypeGeneralMessage, TypeGeneralMessageWithToken]

/-- Path of `SendReceive.OnRecvPacket`: a message with token reaching the handler. -/
theorem sr_run_token (ext : External) (im : IBCMiddleware) (packet : Packet) (relayer : String)
    (hack : (im.app.OnRecvPacket packet relayer).Success = true)
    (data : FungibleTokenPacketData) (hdata : ext.UnmarshalJSON packet.Data = .ok data)
    (hsender : data.Sender = AxelarGMPAcc)
    (msg : Message) (hmemo : jsonUnmarshal data.Memo = .ok msg)
    (htype : msg.Type_ = TypeGeneralMessageWithToken)
    (amt : Int) (hamount : ext.NewIntFromString data.Amount = some amt)
    (denom : String) (hdenom : parseDenom ext.hash packet data.Denom = .returned denom)
    (coin : Coin) (hcoin : NewCoin ext denom amt = .returned coin) :
    SendReceive.OnRecvPacket ext im packet relayer
      = ⟨ackOfErr (im.app.OnRecvPacket packet relayer)
            (im.handler.HandleGeneralMessageWithToken msg.SourceChain msg.SourceAddress
              data.Receiver msg.Payload coin),
          [Event.appOnRecvPacket packet relayer, Event.unmarshalPacketData packet.Data,
            Event.unmarshalMemo data.Memo, Event.parseDenom data.Denom,
            Event.HandleGeneralMessageWithToken msg.SourceChain msg.SourceAddress
              data.Receiver msg.Payload coin]⟩ := by
  simp [SendReceive.OnRecvPacket, hack, hdata, hsender, hmemo, htype, hamount, hdenom, hcoin,
    TypeGeneralMessage, TypeGeneralMessageWithToken]

/-- Path of `SendReceive.OnRecvPacket`: any other message type. -/
theorem sr_run_unrecognized (ext : External) (im : IBCMiddleware) (packet : Packet) (relayer : String)
    (hack : (im.app.OnRecvPacket packet relayer).Success = true)
    (data : FungibleTokenPacketData) (hdata : ext.UnmarshalJSON packet.Data = .ok data)
    (hsender : data.Sender = AxelarGMPAcc)
    (msg : Message) (hmemo : jsonUnmarshal data.Memo = .ok msg)
    (h1 : msg.Type_ ≠ TypeGeneralMessage) (h2 : msg.Type_ ≠ TypeGeneralMessageWithToken) :
    SendReceive.OnRecvPacket ext im packet relayer
      = ⟨.returned (NewErrorAcknowledgement
            (.msg ("unrecognized message type: " ++ fmtInt msg.Type_))),
          [Event.appOnRecvPacket packet relayer, Event.unmarshalPacketData packet.Data,
            Event.unmarshalMemo data.Memo]⟩ := by
  simp [SendReceive.OnRecvPacket, hack, hdata, hsender, hmemo, h1, h2, ackOfErr]

/-! ### The shape of a run that calls a handler -/

/-- Either `GmpMiddleware.OnRecvPacket` calls no handler, or the packet passed every check and
exactly one handler call was made, whose returned error decides the acknowledgement. -/
theorem gmp_handler_call_shape (ext : External) (im : IBCMiddleware) (packet : Packet)
    (relayer : String) :
    (GmpMiddleware.OnRecvPacket ext im packet relayer).handlerCalls = [] ∨
    ∃ data msg,
      (im.app.OnRecvPacket packet relayer).Success = true ∧
      ext.UnmarshalJSON packet.Data = .ok data ∧
      data.Sender = AxelarGMPAcc ∧
      jsonUnmarshal data.Memo = .ok msg ∧
      ((msg.Type_ = TypeGeneralMessage ∧
          (GmpMiddleware.OnRecvPacket ext im packet relayer).handlerCalls
            = [Event.HandleGeneralMessage msg.SourceChain msg.SourceAddress data.Receiver
                msg.Payload] ∧
          (GmpMiddleware.OnRecvPacket ext im packet relayer).outcome
            = ackOfErr (im.app.OnRecvPacket packet relayer)
                (im.handler.HandleGeneralMessage msg.SourceChain msg.SourceAddress
                  data.Receiver msg.Payload)) ∨
        (msg.Type_ = TypeGeneralMessageWithToken ∧ ∃ coin,
          (GmpMiddleware.OnRecvPacket ext im packet relayer).handlerCalls
            = [Event.HandleGeneralMessageWithToken msg.SourceChain msg.SourceAddress
                data.Receiver msg.Payload coin] ∧
          (GmpMiddleware.OnRecvPacket ext im packet relayer).outcome
            = ackOfErr (im.app.OnRecvPacket packet relayer)
                (im.handler.HandleGeneralMessageWithToken msg.SourceChain msg.SourceAddress
                  data.Receiver msg.Payload coin))) := by
  cases hack : (im.app.OnRecvPacket packet relayer).Success
  · left; simp [GmpMiddleware.OnRecvPacket, hack, Run.handlerCalls, Event.isHandlerCall]
  · cases hdata : ext.UnmarshalJSON packet.Data with
    | error err =>
      left
      rw [gmp_run_undecodable ext im packet relayer hack err hdata]
      simp [Run.handlerCalls, Event.isHandlerCall]
    | ok data =>
      by_cases hs : data.Sender = AxelarGMPAcc
      · cases hj : jsonUnmarshal data.Memo with
        | error err =>
          left
          rw [gmp_run_bad_memo ext im packet relayer hack data hdata hs err hj]
          simp [Run.handlerCalls, Event.isHandlerCall]
        | ok msg =>
          by_cases h1 : msg.Type_ = TypeGeneralMessage
          · right
            refine ⟨data, msg, rfl, rfl, hs, hj, Or.inl ⟨h1, ?_, ?_⟩⟩ <;>
              simp [gmp_run_message ext im packet relayer hack data hdata hs msg hj h1,
                Run.handlerCalls, Event.isHandlerCall]
          · by_cases h2 : msg.Type_ = TypeGeneralMessageWithToken
            · cases hamt : ext.NewIntFromString data.Amount with
              | none =>
                left
                rw [gmp_run_token_bad_amount ext im packet relayer hack data hdata hs msg hj
                  h2 hamt]
                simp [Run.handlerCalls, Event.isHandlerCall]
              | some amt =>
                cases hden : parseDenom ext.hash packet data.Denom with
                | panicked reason =>
                  left
                  rw [gmp_run_token_denom_panic ext im packet relayer hack data hdata hs msg
                    hj h2 amt hamt reason hden]
                  simp [Run.handlerCalls, Event.isHandlerCall]
                | returned denom =>
                  cases hcoin : NewCoin ext denom amt with
                  | panicked reason =>
                    left
                    rw [gmp_run_token_coin_panic ext im packet relayer hack data hdata hs msg
                      hj h2 amt hamt denom hden reason hcoin]
                    simp [Run.handlerCalls, Event.isHandlerCall]
                  | returned coin =>
                    right
                    refine ⟨data, msg, rfl, rfl, hs, hj, Or.inr ⟨h2, coin, ?_, ?_⟩⟩ <;>
                      simp [gmp_run_token ext im packet relayer hack data hdata hs msg hj h2
                        amt hamt denom hden coin hcoin,
                Run.handlerCalls, Event.isHandlerCall]
            · left
              rw [gmp_run_unrecognized ext im packet relayer hack data hdata hs msg hj h1 h2]
              simp [Run.handlerCalls, Event.isHandlerCall]
      · left
        rw [gmp_run_unauthorized ext im packet relayer hack data hdata hs]
        simp [Run.handlerCalls, Event.isHandlerCall]

/-- Either `SendReceive.OnRecvPacket` calls no handler, or the packet passed every check and
exactly one handler call was made, whose returned error decides the acknowledgement. -/
theorem sr_handler_call_shape (ext : External) (im : IBCMiddleware) (packet : Packet)
    (relayer : String) :
    (SendReceive.OnRecvPacket ext im packet relayer).handlerCalls = [] ∨
    ∃ data msg,
      (im.app.OnRecvPacket packet relayer).Success = true ∧
      ext.UnmarshalJSON packet.Data = .ok data ∧
      data.Sender = AxelarGMPAcc ∧
      jsonUnmarshal data.Memo = .ok msg ∧
      ((msg.Type_ = TypeGeneralMessage ∧
          (SendReceive.OnRecvPacket ext im packet relayer).handlerCalls
            = [Event.HandleGeneralMessage msg.SourceChain msg.SourceAddress data.Receiver
                msg.Payload] ∧
          (SendReceive.OnRecvPacket ext im packet relayer).outcome
            = ackOfErr (im.app.OnRecvPacket packet relayer)
                (im.handler.HandleGeneralMessage msg.SourceChain msg.SourceAddress
                  data.Receiver msg.Payload)) ∨
        (msg.Type_ = TypeGeneralMessageWithToken ∧ ∃ coin,
          (SendReceive.OnRecvPacket ext im packet relayer).handlerCalls
            = [Event.HandleGeneralMessageWithToken msg.SourceChain msg.SourceAddress
                data.Receiver msg.Payload coin] ∧
          (SendReceive.OnRecvPacket ext im packet relayer).outcome
            = ackOfErr (im.app.OnRecvPacket packet relayer)
                (im.handler.HandleGeneralMessageWithToken msg.SourceChain msg.SourceAddress
                  data.Receiver msg.Payload coin))) := by
  cases hack : (im.app.OnRecvPacket packet relayer).Success
  · left; simp [SendReceive.OnRecvPacket, hack, Run.handlerCalls, Event.isHandlerCall]
  · cases hdata : ext.UnmarshalJSON packet.Data with
    | error err =>
      left
      rw [sr_run_undecodable ext im packet relayer hack err hdata]
      simp [Run.handlerCalls, Event.isHandlerCall]
    | ok data =>
      by_cases hs : data.Sender = AxelarGMPAcc
      · cases hj : jsonUnmarshal data.Memo with
        | error err =>
          left
          rw [sr_run_bad_memo ext im packet relayer hack data hdata hs err hj]
          simp [Run.handlerCalls, Event.isHandlerCall]
        | ok msg =>
          by_cases h1 : msg.Type_ = TypeGeneralMessage
          · right
            refine ⟨data, msg, rfl, rfl, hs, hj, Or.inl ⟨h1, ?_, ?_⟩⟩ <;>
              simp [sr_run_message ext im packet relayer hack data hdata hs msg hj h1,
                Run.handlerCalls, Event.isHandlerCall]
          · by_cases h2 : msg.Type_ = TypeGeneralMessageWithToken
            · cases hamt : ext.NewIntFromString data.Amount with
              | none =>
                left
                rw [sr_run_token_bad_amount ext im packet relayer hack data hdata hs msg hj
                  h2 hamt]
                simp [Run.handlerCalls, Event.isHandlerCall]
              | some amt =>
                cases hden : parseDenom ext.hash packet data.Denom with
                | panicked reason =>
                  left
                  rw [sr_run_token_denom_panic ext im packet relayer hack data hdata hs msg
                    hj h2 amt hamt reason hden]
                  simp [Run.handlerCalls, Event.isHandlerCall]
                | returned denom =>
                  cases hcoin : NewCoin ext denom amt with
                  | panicked reason =>
                    left
                    rw [sr_run_token_coin_panic ext im packet relayer hack data hdata hs msg
                      hj h2 amt hamt denom hden reason hcoin]
                    simp [Run.handlerCalls, Event.isHandlerCall]
                  | returned coin =>
                    right
                    refine ⟨data, msg, rfl, rfl, hs, hj, Or.inr ⟨h2, coin, ?_, ?_⟩⟩ <;>
                      simp [sr_run_token ext im packet relayer hack data hdata hs msg hj h2
                        amt hamt denom hden coin hcoin,
                Run.handlerCalls, Event.isHandlerCall]
            · left
              rw [sr_run_unrecognized ext im packet relayer hack data hdata hs msg hj h1 h2]
              simp [Run.handlerCalls, Event.isHandlerCall]
      · left
        rw [sr_run_unauthorized ext im packet relayer hack data hdata hs]
        simp [Run.handlerCalls, Event.isHandlerCall]

/-! ### The claims about `OnRecvPacket` -/

/-- C1, evaluated on the code: the memo of type 1 without `source_address` decodes to a
message that `validateMessage` rejects, and both `OnRecvPacket` variants nevertheless
call `HandleGeneralMessage` with the empty source address and return the
acknowledgement of the wrapped module: `validateMessage` is never called. -/
theorem invalid_message_reaches_handler :
    jsonUnmarshal memoWithoutSourceAddress = .ok ⟨"ethereum", "", [104, 105], 1⟩
      ∧ validateMessage (some ⟨"ethereum", "", [104, 105], 1⟩)
          = some (.msg "source_address field is required")
      ∧ GmpMiddleware.OnRecvPacket
            (externalDecodingTo (transferFromGateway "100" memoWithoutSourceAddress))
            sampleMiddleware samplePacket "relayer"
          = ⟨.returned (.ofApp true [1]),
              [Event.appOnRecvPacket samplePacket "relayer", Event.unmarshalPacketData [],
                Event.unmarshalMemo memoWithoutSourceAddress,
                Event.HandleGeneralMessage "ethereum" "" "axelar1recv" [104, 105]]⟩
      ∧ SendReceive.OnRecvPacket
            (externalDecodingTo (transferFromGateway "100" memoWithoutSourceAddress))
            sampleMiddleware samplePacket "relayer"
          = ⟨.returned (.ofApp true [1]),
              [Event.appOnRecvPacket samplePacket "relayer", Event.unmarshalPacketData [],
                Event.unmarshalMemo memoWithoutSourceAddress,
                Event.HandleGeneralMessage "ethereum" "" "axelar1recv" [104, 105]]⟩ := by
  decide

/-- C2 as stated fails: with a successful base acknowledgement, a decodable payload, the
authorized sender and the empty memo, `OnRecvPacket` does not return the base
acknowledgement. -/
theorem empty_memo_not_passed_through :
    (sampleMiddleware.app.OnRecvPacket samplePacket "relayer").Success = true
      ∧ (externalDecodingTo (transferFromGateway "100" "")).UnmarshalJSON samplePacket.Data
          = .ok (transferFromGateway "100" "")
      ∧ (transferFromGateway "100" "").Sender = AxelarGMPAcc
      ∧ (transferFromGateway "100" "").Memo = ""
      ∧ (GmpMiddleware.OnRecvPacket (externalDecodingTo (transferFromGateway "100" ""))
            sampleMiddleware samplePacket "relayer").outcome
          ≠ .returned (sampleMiddleware.app.OnRecvPacket samplePacket "relayer")
      ∧ (SendReceive.OnRecvPacket (externalDecodingTo (transferFromGateway "100" ""))
            sampleMiddleware samplePacket "relayer").outcome
          ≠ .returned (sampleMiddleware.app.OnRecvPacket samplePacket "relayer") := by
  decide

/-- C2, amended: with a successful base acknowledgement, a decodable payload, the
authorized sender and the empty memo, both `OnRecvPacket` variants return an error
acknowledgement whose cause is the failure to unmarshal the memo (the empty string is
not JSON), and no handler is called. -/
theorem empty_memo_is_rejected (ext : External) (im : IBCMiddleware) (packet : Packet)
    (relayer : String) (data : FungibleTokenPacketData)
    (hack : (im.app.OnRecvPacket packet relayer).Success = true)
    (hdata : ext.UnmarshalJSON packet.Data = .ok data)
    (hsender : data.Sender = AxelarGMPAcc)
    (hmemo : data.Memo = "") :
    (GmpMiddleware.OnRecvPacket ext im packet relayer).outcome
        = .returned (NewErrorAcknowledgement
            (.wrap "failed to unmarshal memo" (.json .syntaxError)))
      ∧ (GmpMiddleware.OnRecvPacket ext im packet relayer).handlerCalls = []
      ∧ (SendReceive.OnRecvPacket ext im packet relayer).outcome
        = .returned (NewErrorAcknowledgement
            (.wrap "cannot unmarshal memo" (.json .syntaxError)))
      ∧ (SendReceive.OnRecvPacket ext im packet relayer).handlerCalls = [] := by
  have hj : jsonUnmarshal data.Memo = .error .syntaxError := by rw [hmemo]; decide
  rw [gmp_run_bad_memo ext im packet relayer hack data hdata hsender _ hj,
    sr_run_bad_memo ext im packet relayer hack data hdata hsender _ hj]
  simp [Run.handlerCalls, Event.isHandlerCall]

/-- Witness for the amended C2: a plain transfer from the authorized account. -/
theorem empty_memo_is_rejected_witness :
    (GmpMiddleware.OnRecvPacket (externalDecodingTo (transferFromGateway "100" ""))
          sampleMiddleware samplePacket "relayer").outcome
        = .returned (NewErrorAcknowledgement
            (.wrap "failed to unmarshal memo" (.json .syntaxError)))
      ∧ (GmpMiddleware.OnRecvPacket (externalDecodingTo (transferFromGateway "100" ""))
          sampleMiddleware samplePacket "relayer").handlerCalls = []
      ∧ (SendReceive.OnRecvPacket (externalDecodingTo (transferFromGateway "100" ""))
          sampleMiddleware samplePacket "relayer").outcome
        = .returned (NewErrorAcknowledgement
            (.wrap "cannot unmarshal memo" (.json .syntaxError)))
      ∧ (SendReceive.OnRecvPacket (externalDecodingTo (transferFromGateway "100" ""))
          sampleMiddleware samplePacket "relayer").handlerCalls = [] :=
  empty_memo_is_rejected (externalDecodingTo (transferFromGateway "100" "")) sampleMiddleware
    samplePacket "relayer" (transferFromGateway "100" "") (by decide) (by decide) (by decide)
    (by decide)

/-- C3 as stated fails: a memo of type 2 with a successful base acknowledgement, the
authorized sender and a decodable memo, whose amount `abc` is no integer, ends in none
of the three outcomes: no handler is called and the error acknowledgement has an
invalid-amount cause, not the unrecognized-type cause. -/
theorem token_message_with_bad_amount_ends_otherwise :
    (sampleMiddleware.app.OnRecvPacket samplePacket "relayer").Success = true
      ∧ (transferFromGateway "abc" memoGeneralMessageWithToken).Sender = AxelarGMPAcc
      ∧ jsonUnmarshal (transferFromGateway "abc" memoGeneralMessageWithToken).Memo
          = .ok ⟨"ethereum", "0xAA", [104, 105], 2⟩
      ∧ (GmpMiddleware.OnRecvPacket
            (externalDecodingTo (transferFromGateway "abc" memoGeneralMessageWithToken))
            sampleMiddleware samplePacket "relayer").handlerCalls = []
      ∧ (GmpMiddleware.OnRecvPacket
            (externalDecodingTo (transferFromGateway "abc" memoGeneralMessageWithToken))
            sampleMiddleware samplePacket "relayer").outcome
          = .returned (NewErrorAcknowledgement
              (.sdkWrap ErrInvalidAmount "invalid transfer amount: abc"))
      ∧ (GmpMiddleware.OnRecvPacket
            (externalDecodingTo (transferFromGateway "abc" memoGeneralMessageWithToken))
            sampleMiddleware samplePacket "relayer").outcome
          ≠ .returned (NewErrorAcknowledgement (.msg "unrecognized message type: 2")) := by
  decide

/-- C4: in both `OnRecvPacket` variants a handler call occurs only in a run whose
packet payload decoded to a sender equal to `AxelarGMPAcc`; that constant being the
empty string, the sender of such a packet is empty, so no packet with a non-empty sender
reaches a handler. -/
theorem handler_call_requires_gateway_sender (ext : External) (im : IBCMiddleware)
    (packet : Packet) (relayer : String) (e : Event)
    (hcall : e.isHandlerCall = true)
    (hmem : e ∈ (GmpMiddleware.OnRecvPacket ext im packet relayer).trace
      ∨ e ∈ (SendReceive.OnRecvPacket ext im packet relayer).trace) :
    ∃ data, ext.UnmarshalJSON packet.Data = .ok data
      ∧ data.Sender = AxelarGMPAcc ∧ data.Sender = "" := by
  have hne : (GmpMiddleware.OnRecvPacket ext im packet relayer).handlerCalls ≠ []
      ∨ (SendReceive.OnRecvPacket ext im packet relayer).handlerCalls ≠ [] := by
    rcases hmem with h | h
    · exact Or.inl (List.ne_nil_of_mem (List.mem_filter.mpr ⟨h, hcall⟩))
    · exact Or.inr (List.ne_nil_of_mem (List.mem_filter.mpr ⟨h, hcall⟩))
  rcases hne with h | h
  · rcases gmp_handler_call_shape ext im packet relayer with h0 | ⟨data, _, _, hd, hs, _⟩
    · exact absurd h0 h
    · exact ⟨data, hd, hs, hs⟩
  · rcases sr_handler_call_shape ext im packet relayer with h0 | ⟨data, _, _, hd, hs, _⟩
    · exact absurd h0 h
    · exact ⟨data, hd, hs, hs⟩

/-- Witness for C4: the general message sent by the authorized account. -/
theorem handler_call_requires_gateway_sender_witness :
    ∃ data, (externalDecodingTo (transferFromGateway "100" memoGeneralMessage)).UnmarshalJSON
        samplePacket.Data = .ok data
      ∧ data.Sender = AxelarGMPAcc ∧ data.Sender = "" :=
  handler_call_requires_gateway_sender
    (externalDecodingTo (transferFromGateway "100" memoGeneralMessage)) sampleMiddleware
    samplePacket "relayer" (Event.HandleGeneralMessage "ethereum" "0xAA" "axelar1recv" [104, 105])
    (by decide) (Or.inl (by decide))

/-- C9, evaluated on the code: a memo of type 2 with the amount `-5`, after a successful
base acknowledgement and from the authorized sender, makes both `OnRecvPacket` variants
panic in `sdk.NewCoin` (negative coin amount); no acknowledgement is returned. -/
theorem negative_amount_panics :
    (sampleMiddleware.app.OnRecvPacket samplePacket "relayer").Success = true
      ∧ sdkNewIntFromString "-5" = some (-5)
      ∧ (GmpMiddleware.OnRecvPacket
            (externalDecodingTo (transferFromGateway "-5" memoGeneralMessageWithToken))
            sampleMiddleware samplePacket "relayer").outcome
          = .panicked (.msg "negative coin amount: -5")
      ∧ (SendReceive.OnRecvPacket
            (externalDecodingTo (transferFromGateway "-5" memoGeneralMessageWithToken))
            sampleMiddleware samplePacket "relayer").outcome
          = .panicked (.msg "negative coin amount: -5") := by
  decide

/-- C10: a run `r` of either `OnRecvPacket` variant that calls a handler calls exactly
one, once, with the memo's source chain, the memo's source address, the packet's
receiver and the memo's payload, and the acknowledgement follows the error `herr` the
handler returned: the acknowledgement of the wrapped module, unchanged, when there is
none, and the error acknowledgement made of that error otherwise. -/
theorem handler_called_once_and_decides_ack (ext : External) (im : IBCMiddleware)
    (packet : Packet) (relayer : String) (r : Run)
    (hr : r = GmpMiddleware.OnRecvPacket ext im packet relayer
      ∨ r = SendReceive.OnRecvPacket ext im packet relayer)
    (hcalled : r.handlerCalls ≠ []) :
    ∃ data msg herr,
      ext.UnmarshalJSON packet.Data = .ok data
      ∧ jsonUnmarshal data.Memo = .ok msg
      ∧ ((r.handlerCalls = [Event.HandleGeneralMessage msg.SourceChain msg.SourceAddress
              data.Receiver msg.Payload]
            ∧ herr = im.handler.HandleGeneralMessage msg.SourceChain msg.SourceAddress
              data.Receiver msg.Payload)
          ∨ ∃ coin,
            r.handlerCalls = [Event.HandleGeneralMessageWithToken msg.SourceChain
              msg.SourceAddress data.Receiver msg.Payload coin]
            ∧ herr = im.handler.HandleGeneralMessageWithToken msg.SourceChain
              msg.SourceAddress data.Receiver msg.Payload coin)
      ∧ (herr = none → r.outcome = .returned (im.app.OnRecvPacket packet relayer))
      ∧ (∀ err, herr = some err → r.outcome = .returned (NewErrorAcknowledgement err)) := by
  have key : r.handlerCalls = [] ∨ ∃ data msg,
      (im.app.OnRecvPacket packet relayer).Success = true ∧
      ext.UnmarshalJSON packet.Data = .ok data ∧
      data.Sender = AxelarGMPAcc ∧
      jsonUnmarshal data.Memo = .ok msg ∧
      ((msg.Type_ = TypeGeneralMessage ∧
          r.handlerCalls = [Event.HandleGeneralMessage msg.SourceChain msg.SourceAddress
            data.Receiver msg.Payload] ∧
          r.outcome = ackOfErr (im.app.OnRecvPacket packet relayer)
            (im.handler.HandleGeneralMessage msg.SourceChain msg.SourceAddress
              data.Receiver msg.Payload)) ∨
        (msg.Type_ = TypeGeneralMessageWithToken ∧ ∃ coin,
          r.handlerCalls = [Event.HandleGeneralMessageWithToken msg.SourceChain
            msg.SourceAddress data.Receiver msg.Payload coin] ∧
          r.outcome = ackOfErr (im.app.OnRecvPacket packet relayer)
            (im.handler.HandleGeneralMessageWithToken msg.SourceChain msg.SourceAddress
              data.Receiver msg.Payload coin))) := by
    rcases hr with rfl | rfl
    · exact gmp_handler_call_shape ext im packet relayer
    · exact sr_handler_call_shape ext im packet relayer
  rcases key with h0 | ⟨data, msg, _, hd, _, hj, h⟩
  · exact absurd h0 hcalled
  · rcases h with ⟨_, hc, ho⟩ | ⟨_, coin, hc, ho⟩
    · refine ⟨data, msg, _, hd, hj, Or.inl ⟨hc, rfl⟩, fun hn => ?_, fun err he => ?_⟩
      · rw [ho, hn]; rfl
      · rw [ho, he]; rfl
    · refine ⟨data, msg, _, hd, hj, Or.inr ⟨coin, hc, rfl⟩, fun hn => ?_, fun err he => ?_⟩
      · rw [ho, hn]; rfl
      · rw [ho, he]; rfl

/-- Witness for C10: the general message of the second scenario, sent by the authorized
account. -/
theorem handler_called_once_and_decides_ack_witness :
    ∃ data msg herr,
      (externalDecodingTo (transferFromGateway "100" memoGeneralMessage)).UnmarshalJSON
          samplePacket.Data = .ok data
      ∧ jsonUnmarshal data.Memo = .ok msg
      ∧ (((GmpMiddleware.OnRecvPacket
              (externalDecodingTo (transferFromGateway "100" memoGeneralMessage))
              sampleMiddleware samplePacket "relayer").handlerCalls
              = [Event.HandleGeneralMessage msg.SourceChain msg.SourceAddress
                  data.Receiver msg.Payload]
            ∧ herr = sampleMiddleware.handler.HandleGeneralMessage msg.SourceChain
              msg.SourceAddress data.Receiver msg.Payload)
          ∨ ∃ coin,
            (GmpMiddleware.OnRecvPacket
              (externalDecodingTo (transferFromGateway "100" memoGeneralMessage))
              sampleMiddleware samplePacket "relayer").handlerCalls
              = [Event.HandleGeneralMessageWithToken msg.SourceChain
                  msg.SourceAddress data.Receiver msg.Payload coin]
            ∧ herr = sampleMiddleware.handler.HandleGeneralMessageWithToken msg.SourceChain
              msg.SourceAddress data.Receiver msg.Payload coin)
      ∧ (herr = none →
          (GmpMiddleware.OnRecvPacket
            (externalDecodingTo (transferFromGateway "100" memoGeneralMessage))
            sampleMiddleware samplePacket "relayer").outcome
            = .returned (sampleMiddleware.app.OnRecvPacket samplePacket "relayer"))
      ∧ (∀ err, herr = some err →
          (GmpMiddleware.OnRecvPacket
            (externalDecodingTo (transferFromGateway "100" memoGeneralMessage))
            sampleMiddleware samplePacket "relayer").outcome
            = .returned (NewErrorAcknowledgement err)) :=
  handler_called_once_and_decides_ack
    (externalDecodingTo (transferFromGateway "100" memoGeneralMessage)) sampleMiddleware
    samplePacket "relayer" _ (Or.inl rfl) (by decide)

/-! ### Strings and denomination traces -/

/-- A string without `/` is a single piece. -/
theorem splitSlashChars_of_not_mem (cs : List Char) (h : '/' ∉ cs) :
    splitSlashChars cs = [cs] := by
  induction cs with
  | nil => rfl
  | cons c cs ih =>
    have hc : c ≠ '/' := fun e => h (e ▸ List.mem_cons_self _ _)
    have hcs : '/' ∉ cs := fun m => h (List.mem_cons_of_mem _ m)
    simp [splitSlashChars, hc, ih hcs]

/-- Splitting after a first piece without `/`. -/
theorem splitSlashChars_append_slash (p rest : List Char) (h : '/' ∉ p) :
    splitSlashChars (p ++ '/' :: rest) = p :: splitSlashChars rest := by
  induction p with
  | nil => simp [splitSlashChars]
  | cons c cs ih =>
    have hc : c ≠ '/' := fun e => h (e ▸ List.mem_cons_self _ _)
    have hcs : '/' ∉ cs := fun m => h (List.mem_cons_of_mem _ m)
    simp [splitSlashChars, hc, ih hcs]

/-- A split is never empty. -/
theorem splitSlashChars_ne_nil (cs : List Char) : splitSlashChars cs ≠ [] := by
  induction cs with
  | nil => simp [splitSlashChars]
  | cons c cs ih =>
    unfold splitSlashChars
    split
    · simp
    · split <;> simp

/-- The text of a string built from a character list. -/
theorem string_eq_of_data_eq (a b : String) (h : a.data = b.data) : a = b := by
  cases a; cases b; simp_all

/-- A valid channel identifier contains no `/`. -/
theorem validChannelID_no_slash (channelID : String)
    (h : IsValidChannelID channelID = true) : '/' ∉ channelID.data := by
  unfold IsValidChannelID at h
  cases hd : channelIDDigits channelID with
  | none => rw [hd] at h; simp at h
  | some ds =>
    unfold channelIDDigits at hd
    split at hd
    · rename_i hpre
      simp only at hd
      split at hd
      · rename_i hall
        have hpre2 : "channel-".data <+: channelID.data := List.isPrefixOf_iff_prefix.mp hpre
        obtain ⟨t, ht⟩ := hpre2
        have hdrop : channelID.data.drop 8 = t := by
          rw [← ht]; rfl
        rw [hdrop] at hall
        simp only [Bool.and_eq_true, List.all_eq_true] at hall
        intro hmem
        rw [← ht] at hmem
        rcases List.mem_append.mp hmem with h1 | h1
        · revert h1; decide
        · have := hall.1.1 _ h1
          revert this; decide
      · simp at hd
    · simp at hd

/-- The pieces of a denomination behind a port and channel prefix. -/
theorem splitSlash_prefixed (port channel denom : String)
    (hport : '/' ∉ port.data) (hchan : '/' ∉ channel.data) :
    splitSlash (GetDenomPrefix port channel ++ denom)
      = port :: channel :: splitSlash denom := by
  have hdata : (GetDenomPrefix port channel ++ denom).data
      = port.data ++ '/' :: (channel.data ++ '/' :: denom.data) := by
    simp [GetDenomPrefix, String.data_append]
  unfold splitSlash
  rw [hdata, splitSlashChars_append_slash _ _ hport, splitSlashChars_append_slash _ _ hchan]
  simp

/-- The loop only appends to the path. -/
theorem extractLoop_path_extends (length : Nat) (items path : List String) :
    ∃ more, (extractLoop length items path).1 = path ++ more := by
  induction items, path using extractLoop.induct length with
  | case1 path => exact ⟨[], by simp [extractLoop]⟩
  | case2 x path => exact ⟨[], by simp [extractLoop]⟩
  | case3 x y rest path hcond ih =>
    obtain ⟨more, hmore⟩ := ih
    refine ⟨x :: y :: more, ?_⟩
    rw [extractLoop, if_pos hcond, hmore]
    simp
  | case4 x y rest path hcond =>
    exact ⟨[], by rw [extractLoop, if_neg hcond]; simp⟩

/-- Joining at least two items gives a non-empty string. -/
theorem joinSlash_two_ne_empty (a b : String) (rest : List String) :
    joinSlash (a :: b :: rest) ≠ "" := by
  intro h
  have hd := congrArg String.data h
  simp [joinSlash, String.data_append] at hd

/-- Behind the prefix of a port without `/` and a valid channel identifier the parsed
trace has a non-empty path. -/
theorem parseDenomTrace_prefixed_path (port channel denom : String)
    (hport : '/' ∉ port.data) (hchan : IsValidChannelID channel = true) :
    (ParseDenomTrace (GetDenomPrefix port channel ++ denom)).Path ≠ "" := by
  have hsplit := splitSlash_prefixed port channel denom hport
    (validChannelID_no_slash channel hchan)
  have hne : splitSlash denom ≠ [] := by
    unfold splitSlash
    simpa using splitSlashChars_ne_nil denom.data
  have hport_ne : port ≠ GetDenomPrefix port channel ++ denom := by
    intro e
    have hd := congrArg String.data e
    have : '/' ∈ port.data := by
      rw [hd]
      simp [GetDenomPrefix, String.data_append]
    exact hport this
  unfold ParseDenomTrace
  simp only [hsplit, List.head?_cons, Option.some.injEq, hport_ne, if_false]
  unfold extractPathAndBaseFromFullDenom
  have hlen : 2 < (port :: channel :: splitSlash denom).length := by
    cases hs : splitSlash denom with
    | nil => exact absurd hs hne
    | cons a l => simp
  rw [extractLoop]
  simp only [hlen, hchan, decide_True, Bool.and_self, if_true]
  obtain ⟨more, hmore⟩ := extractLoop_path_extends
    (port :: channel :: splitSlash denom).length (splitSlash denom) ([] ++ [port, channel])
  rw [hmore]
  exact joinSlash_two_ne_empty _ _ _

/-- The length of a string is the length of its character list. -/
theorem length_eq_data_length (s : String) : s.length = s.data.length := rfl

/-- A string has the prefix it was built with. -/
theorem hasPrefix_append (pre rest : String) : hasPrefix (pre ++ rest) pre = true := by
  unfold hasPrefix
  rw [List.isPrefixOf_iff_prefix, String.data_append]
  exact List.prefix_append _ _

/-- A string with a given prefix is that prefix followed by a remainder. -/
theorem exists_rest_of_hasPrefix (s pre : String) (h : hasPrefix s pre = true) :
    ∃ rest : String, s = pre ++ rest := by
  unfold hasPrefix at h
  obtain ⟨t, ht⟩ := List.isPrefixOf_iff_prefix.mp h
  exact ⟨⟨t⟩, string_eq_of_data_eq _ _ (by rw [String.data_append, ← ht])⟩

/-- Cutting a string right after its prefix is in range and leaves the remainder. -/
theorem sliceFrom_append (pre rest : String) :
    sliceFrom (pre ++ rest) pre.length = some rest := by
  unfold sliceFrom
  have hlen : pre.length ≤ (pre ++ rest).length := by
    rw [String.length_append]; omega
  rw [if_pos hlen]
  congr 1
  apply string_eq_of_data_eq
  rw [length_eq_data_length, String.data_append, List.drop_left]

/-- The origin branch of `parseDenom`, on a denomination written as prefix and
remainder. -/
theorem parseDenom_prefixed (hash : String → String) (packet : Packet) (rest : String) :
    parseDenom hash packet (GetDenomPrefix packet.SourcePort packet.SourceChannel ++ rest)
      = if rest = "" then
          .returned (GetDenomPrefix packet.SourcePort packet.SourceChannel ++ rest)
        else if (ParseDenomTrace rest).Path ≠ "" then
          .returned ((ParseDenomTrace rest).IBCDenom hash)
        else .returned rest := by
  have hlen : (GetDenomPrefix packet.SourcePort packet.SourceChannel ++ rest).length
        ≤ (GetDenomPrefix packet.SourcePort packet.SourceChannel).length
      ↔ rest = "" := by
    constructor
    · intro h
      apply string_eq_of_data_eq
      have h2 : rest.data.length = 0 := by
        rw [String.length_append, length_eq_data_length rest] at h
        omega
      simpa using List.length_eq_zero.mp h2
    · intro h
      rw [h, String.length_append]
      exact Nat.le_of_eq rfl
  unfold parseDenom
  simp only [ReceiverChainIsSource, hasPrefix_append, if_true, sliceFrom_append, hlen]

/-- The other branch of `parseDenom`. -/
theorem parseDenom_not_source (hash : String → String) (packet : Packet) (denom : String)
    (hnot : ReceiverChainIsSource packet.SourcePort packet.SourceChannel denom = false) :
    parseDenom hash packet denom
      = .returned ((ParseDenomTrace
          (GetDenomPrefix packet.DestinationPort packet.DestinationChannel ++ denom)).IBCDenom
            hash) := by
  unfold parseDenom
  simp [hnot]

/-- A denomination without `/` parses to a trace with an empty path. -/
theorem parseDenomTrace_base (base : String) (hbase : '/' ∉ base.data) :
    ParseDenomTrace base = { Path := "", BaseDenom := base } := by
  unfold ParseDenomTrace splitSlash
  rw [splitSlashChars_of_not_mem _ hbase]
  simp

/-- The trace of a base denomination behind one port and channel prefix. -/
theorem parseDenomTrace_one_hop (port channel base : String)
    (hport : '/' ∉ port.data) (hchan : IsValidChannelID channel = true)
    (hbase : '/' ∉ base.data) :
    ParseDenomTrace (GetDenomPrefix port channel ++ base)
      = { Path := port ++ "/" ++ channel, BaseDenom := base } := by
  have hsplit := splitSlash_prefixed port channel base hport
    (validChannelID_no_slash channel hchan)
  have hb : splitSlash base = [base] := by
    unfold splitSlash
    rw [splitSlashChars_of_not_mem _ hbase]
    simp
  have hport_ne : port ≠ GetDenomPrefix port channel ++ base := by
    intro e
    have hd := congrArg String.data e
    have : '/' ∈ port.data := by
      rw [hd]
      simp [GetDenomPrefix, String.data_append]
    exact hport this
  unfold ParseDenomTrace
  simp only [hsplit, hb, List.head?_cons, Option.some.injEq, hport_ne, if_false]
  simp [extractPathAndBaseFromFullDenom, extractLoop, hchan, joinSlash]

/-- The stand-in digest contains no `/`. -/
theorem taggedDigest_no_slash (s : String) : '/' ∉ (taggedDigest s).data := by
  unfold taggedDigest
  rw [String.data_append]
  intro h
  rcases List.mem_append.mp h with h1 | h1
  · revert h1; decide
  · simp only [List.mem_map] at h1
    obtain ⟨c, _, hc⟩ := h1
    by_cases hs : c = '/'
    · rw [if_pos hs] at hc
      revert hc; decide
    · rw [if_neg hs] at hc
      exact hs hc

/-! ### The claims about `parseDenom` -/

/-- C6: denomination round trip.  For a port without `/`, a valid channel identifier and
a base denomination (a non-empty string without `/`): on arrival at chain B, on that
port and channel, `parseDenom` takes the other-than-origin branch and returns the hashed
form of the voucher `port/channel/base`; and on arrival back at chain A, in a packet
whose source port and channel are that port and channel, `parseDenom` turns the voucher
`port/channel/base` back into `base`. -/
theorem denom_round_trip (hash : String → String) (port channel base : String)
    (toB fromB : Packet)
    (hport : '/' ∉ port.data) (hchan : IsValidChannelID channel = true)
    (hbase : '/' ∉ base.data) (hne : base ≠ "")
    (hto : toB.DestinationPort = port ∧ toB.DestinationChannel = channel)
    (hfrom : fromB.SourcePort = port ∧ fromB.SourceChannel = channel) :
    ReceiverChainIsSource toB.SourcePort toB.SourceChannel base = false
      ∧ parseDenom hash toB base
          = .returned ("ibc/" ++ hash (GetDenomPrefix port channel ++ base))
      ∧ ReceiverChainIsSource fromB.SourcePort fromB.SourceChannel
          (GetDenomPrefix port channel ++ base) = true
      ∧ parseDenom hash fromB (GetDenomPrefix port channel ++ base) = .returned base := by
  have hnot : ReceiverChainIsSource toB.SourcePort toB.SourceChannel base = false := by
    cases h : ReceiverChainIsSource toB.SourcePort toB.SourceChannel base with
    | false => rfl
    | true =>
      obtain ⟨rest, hrest⟩ := exists_rest_of_hasPrefix _ _ h
      have hd := congrArg String.data hrest
      exfalso
      apply hbase
      rw [hd]
      simp [GetDenomPrefix, String.data_append]
  obtain ⟨hp, hc⟩ := hto
  obtain ⟨hsp, hsc⟩ := hfrom
  refine ⟨hnot, ?_, ?_, ?_⟩
  · rw [parseDenom_not_source hash toB base hnot, hp, hc,
      parseDenomTrace_one_hop port channel base hport hchan hbase]
    have hpath : port ++ "/" ++ channel ≠ "" := by
      intro e
      have hd := congrArg String.data e
      simp [String.data_append] at hd
    simp [DenomTrace.IBCDenom, DenomTrace.GetFullDenomPath, hpath, GetDenomPrefix]
  · rw [ReceiverChainIsSource, hsp, hsc]
    exact hasPrefix_append _ _
  · have h := parseDenom_prefixed hash fromB base
    rw [hsp, hsc] at h
    rw [h, if_neg hne, parseDenomTrace_base base hbase]
    simp

/-- Witness for C6: port `transfer`, channel `channel-0`, base `uusdc`. -/
theorem denom_round_trip_witness :
    ReceiverChainIsSource (packetArrivingOn "transfer" "channel-0").SourcePort
        (packetArrivingOn "transfer" "channel-0").SourceChannel "uusdc" = false
      ∧ parseDenom taggedDigest (packetArrivingOn "transfer" "channel-0") "uusdc"
          = .returned ("ibc/" ++ taggedDigest (GetDenomPrefix "transfer" "channel-0" ++ "uusdc"))
      ∧ ReceiverChainIsSource samplePacket.SourcePort samplePacket.SourceChannel
          (GetDenomPrefix "transfer" "channel-0" ++ "uusdc") = true
      ∧ parseDenom taggedDigest samplePacket (GetDenomPrefix "transfer" "channel-0" ++ "uusdc")
          = .returned "uusdc" :=
  denom_round_trip taggedDigest "transfer" "channel-0" "uusdc"
    (packetArrivingOn "transfer" "channel-0") samplePacket (by decide) (by decide) (by decide)
    (by decide) (by decide) (by decide)

/-- C7: when the receiving chain is the origin, the denomination is the voucher prefix
followed by a remainder, and the slice at the prefix's length is in range and is that
remainder.  If the denomination is not longer than the prefix it equals the prefix and
`parseDenom` returns it unchanged.  Otherwise `parseDenom` returns the remainder when
the remainder's trace has an empty path, and `ibc/` followed by the hash of the
remainder's trace when that path is not empty. -/
theorem parseDenom_when_origin (hash : String → String) (packet : Packet) (denom : String)
    (horigin : ReceiverChainIsSource packet.SourcePort packet.SourceChannel denom = true) :
    ∃ rest,
      denom = GetDenomPrefix packet.SourcePort packet.SourceChannel ++ rest
      ∧ sliceFrom denom (GetDenomPrefix packet.SourcePort packet.SourceChannel).length
          = some rest
      ∧ (denom.length ≤ (GetDenomPrefix packet.SourcePort packet.SourceChannel).length →
          denom = GetDenomPrefix packet.SourcePort packet.SourceChannel
            ∧ parseDenom hash packet denom = .returned denom)
      ∧ ((GetDenomPrefix packet.SourcePort packet.SourceChannel).length < denom.length →
          ((ParseDenomTrace rest).Path = "" → parseDenom hash packet denom = .returned rest)
          ∧ ((ParseDenomTrace rest).Path ≠ "" →
              parseDenom hash packet denom
                = .returned ("ibc/" ++ hash (ParseDenomTrace rest).GetFullDenomPath))) := by
  obtain ⟨rest, hrest⟩ := exists_rest_of_hasPrefix _ _ horigin
  subst hrest
  have hp := parseDenom_prefixed hash packet rest
  have hempty : (GetDenomPrefix packet.SourcePort packet.SourceChannel ++ rest).length
        ≤ (GetDenomPrefix packet.SourcePort packet.SourceChannel).length → rest = "" := by
    intro h
    apply string_eq_of_data_eq
    have h2 : rest.data.length = 0 := by
      rw [String.length_append, length_eq_data_length rest] at h
      omega
    simpa using List.length_eq_zero.mp h2
  refine ⟨rest, rfl, sliceFrom_append _ _, fun hle => ?_, fun hlt => ?_⟩
  · have hr := hempty hle
    rw [hp, if_pos hr]
    subst hr
    exact ⟨by simp, rfl⟩
  · have hr : rest ≠ "" := by
      intro e
      subst e
      simp at hlt
    rw [hp, if_neg hr]
    refine ⟨fun h0 => ?_, fun h1 => ?_⟩
    · simp [h0]
    · simp [h1, DenomTrace.IBCDenom]

/-- Witness for C7: the voucher `transfer/channel-0/uusdc` returning to its origin. -/
theorem parseDenom_when_origin_witness :
    ∃ rest,
      "transfer/channel-0/uusdc"
          = GetDenomPrefix samplePacket.SourcePort samplePacket.SourceChannel ++ rest
      ∧ sliceFrom "transfer/channel-0/uusdc"
          (GetDenomPrefix samplePacket.SourcePort samplePacket.SourceChannel).length
          = some rest
      ∧ ("transfer/channel-0/uusdc".length
            ≤ (GetDenomPrefix samplePacket.SourcePort samplePacket.SourceChannel).length →
          "transfer/channel-0/uusdc"
              = GetDenomPrefix samplePacket.SourcePort samplePacket.SourceChannel
            ∧ parseDenom taggedDigest samplePacket "transfer/channel-0/uusdc"
              = .returned "transfer/channel-0/uusdc")
      ∧ ((GetDenomPrefix samplePacket.SourcePort samplePacket.SourceChannel).length
            < "transfer/channel-0/uusdc".length →
          ((ParseDenomTrace rest).Path = "" →
            parseDenom taggedDigest samplePacket "transfer/channel-0/uusdc" = .returned rest)
          ∧ ((ParseDenomTrace rest).Path ≠ "" →
              parseDenom taggedDigest samplePacket "transfer/channel-0/uusdc"
                = .returned ("ibc/" ++ taggedDigest (ParseDenomTrace rest).GetFullDenomPath))) :=
  parseDenom_when_origin taggedDigest samplePacket "transfer/channel-0/uusdc" (by decide)

/-- C8 as stated fails: a packet arriving on channel `custom-channel`, which is not of
the form `channel-N`, with a denomination of which the receiving chain is not the
origin: `parseDenom` returns the unhashed prefixed string. -/
theorem unhashed_on_other_channel_format :
    ReceiverChainIsSource (packetArrivingOn "transfer" "custom-channel").SourcePort
        (packetArrivingOn "transfer" "custom-channel").SourceChannel "uusdc" = false
      ∧ parseDenom taggedDigest (packetArrivingOn "transfer" "custom-channel") "uusdc"
          = .returned "transfer/custom-channel/uusdc"
      ∧ GetDenomPrefix (packetArrivingOn "transfer" "custom-channel").DestinationPort
          (packetArrivingOn "transfer" "custom-channel").DestinationChannel ++ "uusdc"
          = "transfer/custom-channel/uusdc" := by
  decide

/-- C8, amended: when the receiving chain is not the origin, the destination port
contains no `/` and the destination channel is a valid channel identifier (`channel-N`),
the trace parsed from `destPort/destChannel/` followed by the denomination has a
non-empty path and `parseDenom` returns `ibc/` followed by the hash of that trace.  A
digest containing no `/`, the result is not the unhashed prefixed string, and it is not
the bare denomination unless the denomination itself starts with `ibc/`. -/
theorem parseDenom_when_not_origin (hash : String → String) (packet : Packet)
    (denom : String)
    (hnot : ReceiverChainIsSource packet.SourcePort packet.SourceChannel denom = false)
    (hport : '/' ∉ packet.DestinationPort.data)
    (hchan : IsValidChannelID packet.DestinationChannel = true)
    (hhex : ∀ s, '/' ∉ (hash s).data) :
    (ParseDenomTrace
        (GetDenomPrefix packet.DestinationPort packet.DestinationChannel ++ denom)).Path ≠ ""
      ∧ parseDenom hash packet denom
          = .returned ("ibc/" ++ hash (ParseDenomTrace
              (GetDenomPrefix packet.DestinationPort packet.DestinationChannel
                ++ denom)).GetFullDenomPath)
      ∧ parseDenom hash packet denom
          ≠ .returned (GetDenomPrefix packet.DestinationPort packet.DestinationChannel ++ denom)
      ∧ (hasPrefix denom "ibc/" = true ∨ parseDenom hash packet denom ≠ .returned denom) := by
  have hres := parseDenom_not_source hash packet denom hnot
  have hpath := parseDenomTrace_prefixed_path packet.DestinationPort
    packet.DestinationChannel denom hport hchan
  have hval : parseDenom hash packet denom
      = .returned ("ibc/" ++ hash (ParseDenomTrace
          (GetDenomPrefix packet.DestinationPort packet.DestinationChannel
            ++ denom)).GetFullDenomPath) := by
    rw [hres]
    simp [DenomTrace.IBCDenom, hpath]
  refine ⟨hpath, hval, ?_, ?_⟩
  · rw [hval]
    intro e
    have e2 := Outcome.returned.inj e
    have hd := congrArg (fun t : String => t.data.count '/') e2
    have h1 : ("ibc/" ++ hash (ParseDenomTrace
          (GetDenomPrefix packet.DestinationPort packet.DestinationChannel
            ++ denom)).GetFullDenomPath).data.count '/' = 1 := by
      rw [String.data_append, List.count_append, List.count_eq_zero_of_not_mem (hhex _)]
      rfl
    have h2 : 2 ≤ (GetDenomPrefix packet.DestinationPort packet.DestinationChannel
          ++ denom).data.count '/' := by
      simp only [GetDenomPrefix, String.data_append, List.count_append]
      have hone : List.count '/' ("/" : String).data = 1 := rfl
      rw [hone]
      omega
    simp only at hd
    omega
  · cases hibc : hasPrefix denom "ibc/" with
    | true => exact Or.inl rfl
    | false =>
      right
      rw [hval]
      intro e
      have e2 := Outcome.returned.inj e
      have : hasPrefix denom "ibc/" = true := by
        rw [← e2]
        exact hasPrefix_append _ _
      rw [this] at hibc
      exact Bool.noConfusion hibc

/-- Witness for the amended C8: `uusdc` arriving on `transfer/channel-7`. -/
theorem parseDenom_when_not_origin_witness :
    (ParseDenomTrace
        (GetDenomPrefix samplePacket.DestinationPort samplePacket.DestinationChannel
          ++ "uusdc")).Path ≠ ""
      ∧ parseDenom taggedDigest samplePacket "uusdc"
          = .returned ("ibc/" ++ taggedDigest (ParseDenomTrace
              (GetDenomPrefix samplePacket.DestinationPort samplePacket.DestinationChannel
                ++ "uusdc")).GetFullDenomPath)
      ∧ parseDenom taggedDigest samplePacket "uusdc"
          ≠ .returned (GetDenomPrefix samplePacket.DestinationPort
              samplePacket.DestinationChannel ++ "uusdc")
      ∧ (hasPrefix "uusdc" "ibc/" = true
          ∨ parseDenom taggedDigest samplePacket "uusdc" ≠ .returned "uusdc") :=
  parseDenom_when_not_origin taggedDigest samplePacket "uusdc" (by decide) (by decide)
    (by decide) taggedDigest_no_slash

/-! ### Amount guard, validation, and the two variants side by side -/

/-- C11, amended: a packet that reaches dispatch (successful base acknowledgement,
decodable payload, authorized sender, decodable memo) with memo type 2 and an amount
that `sdk.NewIntFromString` refuses (`ok` false): a run `r` of either `OnRecvPacket`
variant returns the error acknowledgement with the invalid-amount cause, and its steps
are the call of the wrapped module and the two decodings only: `parseDenom` is not
called and no handler is called. -/
theorem unparsable_amount_is_rejected (ext : External) (im : IBCMiddleware)
    (packet : Packet) (relayer : String) (data : FungibleTokenPacketData) (msg : Message)
    (r : Run)
    (hr : r = GmpMiddleware.OnRecvPacket ext im packet relayer
      ∨ r = SendReceive.OnRecvPacket ext im packet relayer)
    (hack : (im.app.OnRecvPacket packet relayer).Success = true)
    (hdata : ext.UnmarshalJSON packet.Data = .ok data)
    (hsender : data.Sender = AxelarGMPAcc)
    (hmemo : jsonUnmarshal data.Memo = .ok msg)
    (htype : msg.Type_ = TypeGeneralMessageWithToken)
    (hamount : ext.NewIntFromString data.Amount = none) :
    r.outcome = .returned (NewErrorAcknowledgement
        (.sdkWrap ErrInvalidAmount ("invalid transfer amount: " ++ data.Amount)))
      ∧ r.trace = [Event.appOnRecvPacket packet relayer,
          Event.unmarshalPacketData packet.Data, Event.unmarshalMemo data.Memo]
      ∧ r.handlerCalls = []
      ∧ ∀ denom, Event.parseDenom denom ∉ r.trace := by
  have hrun : r = ⟨.returned (NewErrorAcknowledgement
        (.sdkWrap ErrInvalidAmount ("invalid transfer amount: " ++ data.Amount))),
      [Event.appOnRecvPacket packet relayer, Event.unmarshalPacketData packet.Data,
        Event.unmarshalMemo data.Memo]⟩ := by
    rcases hr with rfl | rfl
    · exact gmp_run_token_bad_amount ext im packet relayer hack data hdata hsender msg hmemo
        htype hamount
    · exact sr_run_token_bad_amount ext im packet relayer hack data hdata hsender msg hmemo
        htype hamount
  subst hrun
  refine ⟨rfl, rfl, ?_, ?_⟩
  · simp [Run.handlerCalls, Event.isHandlerCall]
  · intro denom
    simp

/-- Witness for the amended C11: the memo of type 2 with the amount `not-a-number`,
which `sdk.NewIntFromString` refuses. -/
theorem unparsable_amount_is_rejected_witness :
    (GmpMiddleware.OnRecvPacket
          (externalDecodingTo (transferFromGateway "not-a-number" memoGeneralMessageWithToken))
          sampleMiddleware samplePacket "relayer").outcome
        = .returned (NewErrorAcknowledgement
            (.sdkWrap ErrInvalidAmount ("invalid transfer amount: " ++ "not-a-number")))
      ∧ (GmpMiddleware.OnRecvPacket
          (externalDecodingTo (transferFromGateway "not-a-number" memoGeneralMessageWithToken))
          sampleMiddleware samplePacket "relayer").trace
        = [Event.appOnRecvPacket samplePacket "relayer",
            Event.unmarshalPacketData samplePacket.Data,
            Event.unmarshalMemo memoGeneralMessageWithToken]
      ∧ (GmpMiddleware.OnRecvPacket
          (externalDecodingTo (transferFromGateway "not-a-number" memoGeneralMessageWithToken))
          sampleMiddleware samplePacket "relayer").handlerCalls = []
      ∧ ∀ denom, Event.parseDenom denom ∉ (GmpMiddleware.OnRecvPacket
          (externalDecodingTo (transferFromGateway "not-a-number" memoGeneralMessageWithToken))
          sampleMiddleware samplePacket "relayer").trace :=
  unparsable_amount_is_rejected
    (externalDecodingTo (transferFromGateway "not-a-number" memoGeneralMessageWithToken))
    sampleMiddleware samplePacket "relayer"
    (transferFromGateway "not-a-number" memoGeneralMessageWithToken)
    ⟨"ethereum", "0xAA", [104, 105], 2⟩ _ (Or.inl rfl) (by decide) (by decide) (by decide)
    (by decide) (by decide) (by decide)

/-- C12: for a non-nil message `validateMessage` returns no error exactly when the
source chain is not empty, the source address is not empty, the payload has a length
above zero and the type is 1 or 2; otherwise the error names the first violated rule in
that order; and the nil message is rejected. -/
theorem validateMessage_rules (m : Message) :
    (validateMessage (some m) = none ↔
        m.SourceChain ≠ "" ∧ m.SourceAddress ≠ "" ∧ 0 < m.Payload.length
          ∧ (m.Type_ = 1 ∨ m.Type_ = 2))
      ∧ (m.SourceChain = "" →
          validateMessage (some m) = some (.msg "source_chain field is required"))
      ∧ (m.SourceChain ≠ "" → m.SourceAddress = "" →
          validateMessage (some m) = some (.msg "source_address field is required"))
      ∧ (m.SourceChain ≠ "" → m.SourceAddress ≠ "" → m.Payload.length = 0 →
          validateMessage (some m) = some (.msg "payload field is required"))
      ∧ (m.SourceChain ≠ "" → m.SourceAddress ≠ "" → 0 < m.Payload.length →
          m.Type_ ≠ 1 → m.Type_ ≠ 2 →
          validateMessage (some m)
            = some (.msg ("unrecognized message type: " ++ fmtInt m.Type_)))
      ∧ validateMessage none = some (.msg "message cannot be nil") := by
  refine ⟨?_, fun h1 => ?_, fun h1 h2 => ?_, fun h1 h2 h3 => ?_,
    fun h1 h2 h3 h4 h5 => ?_, rfl⟩
  · by_cases h1 : m.SourceChain = ""
    · simp [validateMessage, h1]
    · by_cases h2 : m.SourceAddress = ""
      · simp [validateMessage, h1, h2]
      · by_cases h3 : m.Payload.length = 0
        · simp [validateMessage, h1, h2, h3]
        · by_cases h4 : m.Type_ = 1
          · simp [validateMessage, h1, h2, h3, h4, TypeGeneralMessage]
            exact Nat.pos_of_ne_zero h3
          · by_cases h5 : m.Type_ = 2
            · simp [validateMessage, h1, h2, h3, h5, TypeGeneralMessage,
                TypeGeneralMessageWithToken]
              exact Nat.pos_of_ne_zero h3
            · simp [validateMessage, h1, h2, h3, h4, h5, TypeGeneralMessage,
                TypeGeneralMessageWithToken]
  · simp [validateMessage, h1]
  · simp [validateMessage, h1, h2]
  · simp [validateMessage, h1, h2, h3]
  · have h3' : m.Payload.length ≠ 0 := Nat.pos_iff_ne_zero.mp h3
    simp [validateMessage, h1, h2, h3', h4, h5, TypeGeneralMessage,
      TypeGeneralMessageWithToken]

/-- Outside the unauthorized-sender path the two variants end with the same
acknowledgement variant. -/
theorem variants_same_outcome (ext : External) (im : IBCMiddleware) (packet : Packet)
    (relayer : String)
    (hrest : ¬ ((im.app.OnRecvPacket packet relayer).Success = true
      ∧ ∃ data, ext.UnmarshalJSON packet.Data = .ok data ∧ data.Sender ≠ AxelarGMPAcc)) :
    sameVariant (GmpMiddleware.OnRecvPacket ext im packet relayer).outcome
      (SendReceive.OnRecvPacket ext im packet relayer).outcome = true := by
  cases hack : (im.app.OnRecvPacket packet relayer).Success
  · have h1 : GmpMiddleware.OnRecvPacket ext im packet relayer
        = ⟨.returned (im.app.OnRecvPacket packet relayer),
            [Event.appOnRecvPacket packet relayer]⟩ := by
      simp [GmpMiddleware.OnRecvPacket, hack]
    have h2 : SendReceive.OnRecvPacket ext im packet relayer
        = ⟨.returned (im.app.OnRecvPacket packet relayer),
            [Event.appOnRecvPacket packet relayer]⟩ := by
      simp [SendReceive.OnRecvPacket, hack]
    rw [h1, h2]
    cases hv : im.app.OnRecvPacket packet relayer with
    | ofApp s b => simp [sameVariant]
    | error c => simp [sameVariant]
  · cases hdata : ext.UnmarshalJSON packet.Data with
    | error err =>
      rw [gmp_run_undecodable ext im packet relayer hack err hdata,
        sr_run_undecodable ext im packet relayer hack err hdata]
      simp [sameVariant, NewErrorAcknowledgement]
    | ok data =>
      by_cases hs : data.Sender = AxelarGMPAcc
      · cases hj : jsonUnmarshal data.Memo with
        | error err =>
          rw [gmp_run_bad_memo ext im packet relayer hack data hdata hs err hj,
            sr_run_bad_memo ext im packet relayer hack data hdata hs err hj]
          simp [sameVariant, NewErrorAcknowledgement]
        | ok msg =>
          have hsame : ∀ o : Outcome Acknowledgement, (∃ e, o = ackOfErr
              (im.app.OnRecvPacket packet relayer) e) → sameVariant o o = true := by
            rintro o ⟨e, rfl⟩
            cases e with
            | some c => simp [ackOfErr, sameVariant, NewErrorAcknowledgement]
            | none =>
              cases hv : im.app.OnRecvPacket packet relayer with
              | ofApp s b => simp [ackOfErr, sameVariant]
              | error c => simp [ackOfErr, sameVariant]
          by_cases h1 : msg.Type_ = TypeGeneralMessage
          · rw [gmp_run_message ext im packet relayer hack data hdata hs msg hj h1,
              sr_run_message ext im packet relayer hack data hdata hs msg hj h1]
            exact hsame _ ⟨_, rfl⟩
          · by_cases h2 : msg.Type_ = TypeGeneralMessageWithToken
            · cases hamt : ext.NewIntFromString data.Amount with
              | none =>
                rw [gmp_run_token_bad_amount ext im packet relayer hack data hdata hs msg hj
                    h2 hamt,
                  sr_run_token_bad_amount ext im packet relayer hack data hdata hs msg hj
                    h2 hamt]
                simp [sameVariant, NewErrorAcknowledgement]
              | some amt =>
                cases hden : parseDenom ext.hash packet data.Denom with
                | panicked reason =>
                  rw [gmp_run_token_denom_panic ext im packet relayer hack data hdata hs msg
                      hj h2 amt hamt reason hden,
                    sr_run_token_denom_panic ext im packet relayer hack data hdata hs msg
                      hj h2 amt hamt reason hden]
                  simp [sameVariant]
                | returned denom =>
                  cases hcoin : NewCoin ext denom amt with
                  | panicked reason =>
                    rw [gmp_run_token_coin_panic ext im packet relayer hack data hdata hs msg
                        hj h2 amt hamt denom hden reason hcoin,
                      sr_run_token_coin_panic ext im packet relayer hack data hdata hs msg
                        hj h2 amt hamt denom hden reason hcoin]
                    simp [sameVariant]
                  | returned coin =>
                    rw [gmp_run_token ext im packet relayer hack data hdata hs msg hj h2
                        amt hamt denom hden coin hcoin,
                      sr_run_token ext im packet relayer hack data hdata hs msg hj h2
                        amt hamt denom hden coin hcoin]
                    exact hsame _ ⟨_, rfl⟩
            · rw [gmp_run_unrecognized ext im packet relayer hack data hdata hs msg hj h1 h2,
                sr_run_unrecognized ext im packet relayer hack data hdata hs msg hj h1 h2]
              simp [sameVariant, NewErrorAcknowledgement]
      · exact absurd ⟨hack, data, hdata, hs⟩ hrest

/-- The two variants take the same steps on every input. -/
theorem variants_same_trace (ext : External) (im : IBCMiddleware) (packet : Packet)
    (relayer : String) :
    (GmpMiddleware.OnRecvPacket ext im packet relayer).trace
      = (SendReceive.OnRecvPacket ext im packet relayer).trace := by
  cases hack : (im.app.OnRecvPacket packet relayer).Success
  · simp [GmpMiddleware.OnRecvPacket, SendReceive.OnRecvPacket, hack]
  · cases hdata : ext.UnmarshalJSON packet.Data with
    | error err =>
      rw [gmp_run_undecodable ext im packet relayer hack err hdata,
        sr_run_undecodable ext im packet relayer hack err hdata]
    | ok data =>
      by_cases hs : data.Sender = AxelarGMPAcc
      · cases hj : jsonUnmarshal data.Memo with
        | error err =>
          rw [gmp_run_bad_memo ext im packet relayer hack data hdata hs err hj,
            sr_run_bad_memo ext im packet relayer hack data hdata hs err hj]
        | ok msg =>
          by_cases h1 : msg.Type_ = TypeGeneralMessage
          · rw [gmp_run_message ext im packet relayer hack data hdata hs msg hj h1,
              sr_run_message ext im packet relayer hack data hdata hs msg hj h1]
          · by_cases h2 : msg.Type_ = TypeGeneralMessageWithToken
            · cases hamt : ext.NewIntFromString data.Amount with
              | none =>
                rw [gmp_run_token_bad_amount ext im packet relayer hack data hdata hs msg hj
                    h2 hamt,
                  sr_run_token_bad_amount ext im packet relayer hack data hdata hs msg hj
                    h2 hamt]
              | some amt =>
                cases hden : parseDenom ext.hash packet data.Denom with
                | panicked reason =>
                  rw [gmp_run_token_denom_panic ext im packet relayer hack data hdata hs msg
                      hj h2 amt hamt reason hden,
                    sr_run_token_denom_panic ext im packet relayer hack data hdata hs msg
                      hj h2 amt hamt reason hden]
                | returned denom =>
                  cases hcoin : NewCoin ext denom amt with
                  | panicked reason =>
                    rw [gmp_run_token_coin_panic ext im packet relayer hack data hdata hs msg
                        hj h2 amt hamt denom hden reason hcoin,
                      sr_run_token_coin_panic ext im packet relayer hack data hdata hs msg
                        hj h2 amt hamt denom hden reason hcoin]
                  | returned coin =>
                    rw [gmp_run_token ext im packet relayer hack data hdata hs msg hj h2
                        amt hamt denom hden coin hcoin,
                      sr_run_token ext im packet relayer hack data hdata hs msg hj h2
                        amt hamt denom hden coin hcoin]
            · rw [gmp_run_unrecognized ext im packet relayer hack data hdata hs msg hj h1 h2,
                sr_run_unrecognized ext im packet relayer hack data hdata hs msg hj h1 h2]
      · rw [gmp_run_unauthorized ext im packet relayer hack data hdata hs,
          sr_run_unauthorized ext im packet relayer hack data hdata hs]

/-- C13: the two `OnRecvPacket` variants take the same steps on every input, so they
call the same handler with the same arguments, and they end with the same
acknowledgement variant, except exactly on the inputs with a successful base
acknowledgement, a decodable payload and a sender other than the authorized account:
there `gmp_middleware/middleware.go` returns the base acknowledgement unchanged,
`send-receive/cosmos/gmp_middleware.go` returns the error acknowledgement with the
unauthorized-sender cause, and neither calls a handler. -/
theorem variants_agree_except_unauthorized (ext : External) (im : IBCMiddleware)
    (packet : Packet) (relayer : String) :
    ((GmpMiddleware.OnRecvPacket ext im packet relayer).trace
          = (SendReceive.OnRecvPacket ext im packet relayer).trace
        ∧ (GmpMiddleware.OnRecvPacket ext im packet relayer).handlerCalls
          = (SendReceive.OnRecvPacket ext im packet relayer).handlerCalls)
      ∧ (¬ ((im.app.OnRecvPacket packet relayer).Success = true
            ∧ ∃ data, ext.UnmarshalJSON packet.Data = .ok data
              ∧ data.Sender ≠ AxelarGMPAcc) →
          sameVariant (GmpMiddleware.OnRecvPacket ext im packet relayer).outcome
            (SendReceive.OnRecvPacket ext im packet relayer).outcome = true)
      ∧ (∀ data, (im.app.OnRecvPacket packet relayer).Success = true →
          ext.UnmarshalJSON packet.Data = .ok data → data.Sender ≠ AxelarGMPAcc →
          (GmpMiddleware.OnRecvPacket ext im packet relayer).outcome
              = .returned (im.app.OnRecvPacket packet relayer)
            ∧ (SendReceive.OnRecvPacket ext im packet relayer).outcome
              = .returned (NewErrorAcknowledgement
                  (.msg ("unauthorized sender: " ++ data.Sender)))
            ∧ sameVariant (GmpMiddleware.OnRecvPacket ext im packet relayer).outcome
                (SendReceive.OnRecvPacket ext im packet relayer).outcome = false
            ∧ (GmpMiddleware.OnRecvPacket ext im packet relayer).handlerCalls = []
            ∧ (SendReceive.OnRecvPacket ext im packet relayer).handlerCalls = []) := by
  have htrace := variants_same_trace ext im packet relayer
  refine ⟨⟨htrace, ?_⟩, variants_same_outcome ext im packet relayer, ?_⟩
  · unfold Run.handlerCalls
    rw [htrace]
  · intro data hack hdata hs
    rw [gmp_run_unauthorized ext im packet relayer hack data hdata hs,
      sr_run_unauthorized ext im packet relayer hack data hdata hs]
    refine ⟨rfl, rfl, ?_, ?_, ?_⟩
    · cases hv : im.app.OnRecvPacket packet relayer with
      | ofApp s b => simp [sameVariant, NewErrorAcknowledgement]
      | error c =>
        rw [hv] at hack
        simp [Acknowledgement.Success] at hack
    · simp [Run.handlerCalls, Event.isHandlerCall]
    · simp [Run.handlerCalls, Event.isHandlerCall]

/-- Witness for C13: a general message sent by `cosmos1stranger`. -/
theorem variants_agree_except_unauthorized_witness :
    (GmpMiddleware.OnRecvPacket (externalDecodingTo transferFromStranger) sampleMiddleware
          samplePacket "relayer").outcome
        = .returned (sampleMiddleware.app.OnRecvPacket samplePacket "relayer")
      ∧ (SendReceive.OnRecvPacket (externalDecodingTo transferFromStranger) sampleMiddleware
          samplePacket "relayer").outcome
        = .returned (NewErrorAcknowledgement
            (.msg ("unauthorized sender: " ++ transferFromStranger.Sender)))
      ∧ sameVariant
          (GmpMiddleware.OnRecvPacket (externalDecodingTo transferFromStranger)
            sampleMiddleware samplePacket "relayer").outcome
          (SendReceive.OnRecvPacket (externalDecodingTo transferFromStranger)
            sampleMiddleware samplePacket "relayer").outcome = false
      ∧ (GmpMiddleware.OnRecvPacket (externalDecodingTo transferFromStranger)
          sampleMiddleware samplePacket "relayer").handlerCalls = []
      ∧ (SendReceive.OnRecvPacket (externalDecodingTo transferFromStranger)
          sampleMiddleware samplePacket "relayer").handlerCalls = [] :=
  (variants_agree_except_unauthorized (externalDecodingTo transferFromStranger)
    sampleMiddleware samplePacket "relayer").2.2 transferFromStranger (by decide) (by decide)
    (by decide)

/-! ### Dispatch by message type, on every path -/

/-- The function `parseDenom` returns on every input. -/
theorem parseDenom_returns (hash : String → String) (packet : Packet) (denom : String) :
    ∃ d, parseDenom hash packet denom = .returned d := by
  cases h : ReceiverChainIsSource packet.SourcePort packet.SourceChannel denom with
  | false => exact ⟨_, parseDenom_not_source hash packet denom h⟩
  | true =>
    obtain ⟨rest, hrest⟩ := exists_rest_of_hasPrefix _ _ h
    subst hrest
    rw [parseDenom_prefixed]
    split
    · exact ⟨_, rfl⟩
    · split
      · exact ⟨_, rfl⟩
      · exact ⟨_, rfl⟩

/-- A run of either variant makes at most one handler call. -/
theorem handlerCalls_length_le_one (ext : External) (im : IBCMiddleware) (packet : Packet)
    (relayer : String) (r : Run)
    (hr : r = GmpMiddleware.OnRecvPacket ext im packet relayer
      ∨ r = SendReceive.OnRecvPacket ext im packet relayer) :
    r.handlerCalls.length ≤ 1 := by
  rcases hr with rfl | rfl
  · rcases gmp_handler_call_shape ext im packet relayer with h0 | ⟨_, _, _, _, _, _, h⟩
    · simp [h0]
    · rcases h with ⟨_, hc, _⟩ | ⟨_, _, hc, _⟩ <;> simp [hc]
  · rcases sr_handler_call_shape ext im packet relayer with h0 | ⟨_, _, _, _, _, _, h⟩
    · simp [h0]
    · rcases h with ⟨_, hc, _⟩ | ⟨_, _, hc, _⟩ <;> simp [hc]

/-- C3, amended: with a successful base acknowledgement, a decodable payload, the
authorized sender and a decodable memo, a run `r` of either `OnRecvPacket` variant makes
at most one handler call, and it ends in exactly one way for every value of the memo's
type field.  Type 1: `HandleGeneralMessage` is the only handler call and its error
decides the acknowledgement.  Type 2, amount refused by `sdk.NewIntFromString`: no
handler call, error acknowledgement with the invalid-amount cause.  Type 2, amount
accepted: `parseDenom` returns a denomination; when `sdk.NewCoin` accepts the coin,
`HandleGeneralMessageWithToken` is the only handler call and its error decides the
acknowledgement; when `sdk.NewCoin` panics, no handler is called and the run ends in that
panic.  Every other value, 0 included: no handler call, error acknowledgement with the
unrecognized-type cause. -/
theorem dispatch_by_message_type (ext : External) (im : IBCMiddleware) (packet : Packet)
    (relayer : String) (data : FungibleTokenPacketData) (msg : Message) (r : Run)
    (hr : r = GmpMiddleware.OnRecvPacket ext im packet relayer
      ∨ r = SendReceive.OnRecvPacket ext im packet relayer)
    (hack : (im.app.OnRecvPacket packet relayer).Success = true)
    (hdata : ext.UnmarshalJSON packet.Data = .ok data)
    (hsender : data.Sender = AxelarGMPAcc)
    (hmemo : jsonUnmarshal data.Memo = .ok msg) :
    r.handlerCalls.length ≤ 1
      ∧ (msg.Type_ = 1 →
          r.handlerCalls = [Event.HandleGeneralMessage msg.SourceChain msg.SourceAddress
            data.Receiver msg.Payload]
          ∧ r.outcome = ackOfErr (im.app.OnRecvPacket packet relayer)
              (im.handler.HandleGeneralMessage msg.SourceChain msg.SourceAddress
                data.Receiver msg.Payload))
      ∧ (msg.Type_ = 2 → ext.NewIntFromString data.Amount = none →
          r.handlerCalls = [] ∧
          r.outcome = .returned (NewErrorAcknowledgement
            (.sdkWrap ErrInvalidAmount ("invalid transfer amount: " ++ data.Amount))))
      ∧ (msg.Type_ = 2 → ∀ amt, ext.NewIntFromString data.Amount = some amt →
          ∃ denom, parseDenom ext.hash packet data.Denom = .returned denom
            ∧ (∀ coin, NewCoin ext denom amt = .returned coin →
                r.handlerCalls = [Event.HandleGeneralMessageWithToken msg.SourceChain
                  msg.SourceAddress data.Receiver msg.Payload coin]
                ∧ r.outcome = ackOfErr (im.app.OnRecvPacket packet relayer)
                    (im.handler.HandleGeneralMessageWithToken msg.SourceChain
                      msg.SourceAddress data.Receiver msg.Payload coin))
            ∧ (∀ reason, NewCoin ext denom amt = .panicked reason →
                r.handlerCalls = [] ∧ r.outcome = .panicked reason))
      ∧ (msg.Type_ ≠ 1 → msg.Type_ ≠ 2 →
          r.handlerCalls = [] ∧
          r.outcome = .returned (NewErrorAcknowledgement
            (.msg ("unrecognized message type: " ++ fmtInt msg.Type_)))) := by
  refine ⟨handlerCalls_length_le_one ext im packet relayer r hr, fun h1 => ?_,
    fun h2 hamt => ?_, fun h2 amt hamt => ?_, fun h1 h2 => ?_⟩
  · rcases hr with rfl | rfl
    · rw [gmp_run_message ext im packet relayer hack data hdata hsender msg hmemo h1]
      simp [Run.handlerCalls, Event.isHandlerCall]
    · rw [sr_run_message ext im packet relayer hack data hdata hsender msg hmemo h1]
      simp [Run.handlerCalls, Event.isHandlerCall]
  · rcases hr with rfl | rfl
    · rw [gmp_run_token_bad_amount ext im packet relayer hack data hdata hsender msg hmemo
        h2 hamt]
      simp [Run.handlerCalls, Event.isHandlerCall]
    · rw [sr_run_token_bad_amount ext im packet relayer hack data hdata hsender msg hmemo
        h2 hamt]
      simp [Run.handlerCalls, Event.isHandlerCall]
  · obtain ⟨denom, hden⟩ := parseDenom_returns ext.hash packet data.Denom
    refine ⟨denom, hden, fun coin hcoin => ?_, fun reason hcoin => ?_⟩
    · rcases hr with rfl | rfl
      · rw [gmp_run_token ext im packet relayer hack data hdata hsender msg hmemo h2 amt
          hamt denom hden coin hcoin]
        simp [Run.handlerCalls, Event.isHandlerCall]
      · rw [sr_run_token ext im packet relayer hack data hdata hsender msg hmemo h2 amt
          hamt denom hden coin hcoin]
        simp [Run.handlerCalls, Event.isHandlerCall]
    · rcases hr with rfl | rfl
      · rw [gmp_run_token_coin_panic ext im packet relayer hack data hdata hsender msg hmemo
          h2 amt hamt denom hden reason hcoin]
        simp [Run.handlerCalls, Event.isHandlerCall]
      · rw [sr_run_token_coin_panic ext im packet relayer hack data hdata hsender msg hmemo
          h2 amt hamt denom hden reason hcoin]
        simp [Run.handlerCalls, Event.isHandlerCall]
  · rcases hr with rfl | rfl
    · rw [gmp_run_unrecognized ext im packet relayer hack data hdata hsender msg hmemo h1 h2]
      simp [Run.handlerCalls, Event.isHandlerCall]
    · rw [sr_run_unrecognized ext im packet relayer hack data hdata hsender msg hmemo h1 h2]
      simp [Run.handlerCalls, Event.isHandlerCall]

/-- Witness for the amended C3: the memo of type 2 with the amount `100`; the handler is
called once with the coin of 100 of the hashed denomination and the base acknowledgement
is returned. -/
theorem dispatch_by_message_type_witness :
    (GmpMiddleware.OnRecvPacket
          (externalDecodingTo (transferFromGateway "100" memoGeneralMessageWithToken))
          sampleMiddleware samplePacket "relayer").handlerCalls
        = [Event.HandleGeneralMessageWithToken "ethereum" "0xAA" "axelar1recv" [104, 105]
            ⟨"ibc/DIGEST-transfer.channel-7.uusdc", 100⟩]
      ∧ (GmpMiddleware.OnRecvPacket
          (externalDecodingTo (transferFromGateway "100" memoGeneralMessageWithToken))
          sampleMiddleware samplePacket "relayer").outcome
        = .returned (.ofApp true [1]) := by
  obtain ⟨denom, hden, hok, _⟩ :=
    (dispatch_by_message_type
      (externalDecodingTo (transferFromGateway "100" memoGeneralMessageWithToken))
      sampleMiddleware samplePacket "relayer"
      (transferFromGateway "100" memoGeneralMessageWithToken)
      ⟨"ethereum", "0xAA", [104, 105], 2⟩ _ (Or.inl rfl) (by decide) (by decide) (by decide)
      (by decide)).2.2.2.1 (by decide) 100 (by decide)
  have h0 : parseDenom taggedDigest samplePacket "uusdc"
      = .returned "ibc/DIGEST-transfer.channel-7.uusdc" := by decide
  have hd : denom = "ibc/DIGEST-transfer.channel-7.uusdc" :=
    Outcome.returned.inj (hden.symm.trans h0)
  subst hd
  exact hok ⟨"ibc/DIGEST-transfer.channel-7.uusdc", 100⟩ (by decide)

/-- C11 as stated fails: the amount `0x10` is not a decimal integer, yet
`sdk.NewIntFromString` accepts it as 16; with memo type 2 both `OnRecvPacket` variants
call `HandleGeneralMessageWithToken` with a coin of 16 and return the base
acknowledgement, not an error acknowledgement. -/
theorem hexadecimal_amount_is_dispatched :
    isDecimalInteger "0x10" = false
      ∧ sdkNewIntFromString "0x10" = some 16
      ∧ jsonUnmarshal (transferFromGateway "0x10" memoGeneralMessageWithToken).Memo
          = .ok ⟨"ethereum", "0xAA", [104, 105], 2⟩
      ∧ GmpMiddleware.OnRecvPacket
            (externalDecodingTo (transferFromGateway "0x10" memoGeneralMessageWithToken))
            sampleMiddleware samplePacket "relayer"
          = ⟨.returned (.ofApp true [1]),
              [Event.appOnRecvPacket samplePacket "relayer", Event.unmarshalPacketData [],
                Event.unmarshalMemo memoGeneralMessageWithToken, Event.parseDenom "uusdc",
                Event.HandleGeneralMessageWithToken "ethereum" "0xAA" "axelar1recv"
                  [104, 105] ⟨"ibc/DIGEST-transfer.channel-7.uusdc", 16⟩]⟩
      ∧ SendReceive.OnRecvPacket
            (externalDecodingTo (transferFromGateway "0x10" memoGeneralMessageWithToken))
            sampleMiddleware samplePacket "relayer"
          = ⟨.returned (.ofApp true [1]),
              [Event.appOnRecvPacket samplePacket "relayer", Event.unmarshalPacketData [],
                Event.unmarshalMemo memoGeneralMessageWithToken, Event.parseDenom "uusdc",
                Event.HandleGeneralMessageWithToken "ethereum" "0xAA" "axelar1recv"
                  [104, 105] ⟨"ibc/DIGEST-transfer.channel-7.uusdc", 16⟩]⟩ := by
  decide

/-- The model of `sdk.NewIntFromString` on sample amounts. -/
theorem sdkNewIntFromString_samples :
    sdkNewIntFromString "100" = some 100
      ∧ sdkNewIntFromString "-5" = some (-5)
      ∧ sdkNewIntFromString "+100" = some 100
      ∧ sdkNewIntFromString "0x10" = some 16
      ∧ sdkNewIntFromString "1_000" = some 1000
      ∧ sdkNewIntFromString "00100" = some 64
      ∧ sdkNewIntFromString "0" = some 0
      ∧ sdkNewIntFromString "-0" = some 0
      ∧ sdkNewIntFromString "0b101" = some 5
      ∧ sdkNewIntFromString "0o17" = some 15
      ∧ sdkNewIntFromString "0x_1F" = some 31
      ∧ sdkNewIntFromString "" = none
      ∧ sdkNewIntFromString "-" = none
      ∧ sdkNewIntFromString "abc" = none
      ∧ sdkNewIntFromString "not-a-number" = none
      ∧ sdkNewIntFromString "09" = none
      ∧ sdkNewIntFromString "0x" = none
      ∧ sdkNewIntFromString "1__0" = none
      ∧ sdkNewIntFromString "_1" = none
      ∧ sdkNewIntFromString "1_" = none
      ∧ sdkNewIntFromString "1.5" = none
      ∧ sdkNewIntFromString " 1" = none := by
  decide
